import Mathlib

/-!
Shallow embedding of the hierarchical aggregation core of the
portfolio-analysis dashboard (files `src/pages/2_Portfolio_Classification.py`
and `src/pages/portfolio.py`).

Numbers are modelled as rationals (`ℚ`); Python's insertion-ordered `dict`s
are modelled as association lists (`List (String × _)`) where `setdefault`
followed by in-place mutation becomes the `upsert` operation below; `None`
cells become `Option` values.
-/

/-- Python's `round` rounds half to even; `pyRound q` is that on rationals. -/
def pyRound (q : ℚ) : ℤ :=
  let f : ℤ := ⌊q⌋
  let frac : ℚ := q - f
  if frac < 1/2 then f
  else if 1/2 < frac then f + 1
  else if f % 2 = 0 then f else f + 1

/-- `round(x, 2)` from the source: round to 2 decimal places. -/
def round2 (q : ℚ) : ℚ := (pyRound (q * 100) : ℚ) / 100

/-- One row of the classification reference sheet (`input.xlsx`), as the
per-fund dict produced by `extract_asset_classifications`. -/
structure Attrs where
  classification : String
  assetClass : String
  subAssetClass : String
  liquidity : String
  instrument : String
  publicPrivate : String
  incomeGrowth : String
  expectedYield : ℚ
  expectedReturn : ℚ
  expectedVolatility : ℚ
deriving Repr, DecidableEq

/-- The `asset_classifications` dict: fund name → attribute record. -/
abbrev Lookup := List (String × Attrs)

/-- `asset_classifications.get(asset, {})` followed by field access:
`find? lk a` is the record for fund `a`, if present. -/
def findAttrs (lk : Lookup) (a : String) : Option Attrs :=
  (lk.find? (fun p => p.1 = a)).map (·.2)

/-- `.get("Classification", "Alternative")` -/
def getClassification (lk : Lookup) (a : String) : String :=
  match findAttrs lk a with
  | some r => r.classification
  | none => "Alternative"

/-- `.get("Asset Class", "")` -/
def getAssetClass (lk : Lookup) (a : String) : String :=
  match findAttrs lk a with
  | some r => r.assetClass
  | none => ""

/-- `.get("Sub-Asset Class", "")` -/
def getSubAssetClass (lk : Lookup) (a : String) : String :=
  match findAttrs lk a with
  | some r => r.subAssetClass
  | none => ""

/-- `.get("Liquidity", "Illiquid")` — the default used by `create_sunburst_table`. -/
def getLiquidityD (lk : Lookup) (a : String) : String :=
  match findAttrs lk a with
  | some r => r.liquidity
  | none => "Illiquid"

/-- `.get("Liquidity", "")` — the default used by `create_income_growth_allocation`. -/
def getLiquidityIG (lk : Lookup) (a : String) : String :=
  match findAttrs lk a with
  | some r => r.liquidity
  | none => ""

/-- `.get("Instrument/Manager", asset)` -/
def getInstrument (lk : Lookup) (a : String) : String :=
  match findAttrs lk a with
  | some r => r.instrument
  | none => a

/-- `.get("Public vs Private", "")` -/
def getPublicPrivate (lk : Lookup) (a : String) : String :=
  match findAttrs lk a with
  | some r => r.publicPrivate
  | none => ""

/-- `.get("Income/Growth", "")` -/
def getIncomeGrowth (lk : Lookup) (a : String) : String :=
  match findAttrs lk a with
  | some r => r.incomeGrowth
  | none => ""

/-- `.get("Expected Yield (%)", 0)` -/
def getYield (lk : Lookup) (a : String) : ℚ :=
  match findAttrs lk a with
  | some r => r.expectedYield
  | none => 0

/-- `.get("Expected Return (%)", 0)` -/
def getReturn (lk : Lookup) (a : String) : ℚ :=
  match findAttrs lk a with
  | some r => r.expectedReturn
  | none => 0

/-- `.get("Expected Volatility (%)", 0)` -/
def getVolatility (lk : Lookup) (a : String) : ℚ :=
  match findAttrs lk a with
  | some r => r.expectedVolatility
  | none => 0

/-- `d.setdefault(k, dflt)` followed by mutating the entry with `f`:
if `k` is present its value is updated in place, otherwise `(k, f dflt)`
is appended at the end (Python dicts are insertion-ordered). -/
def upsert {β : Type} (k : String) (dflt : β) (f : β → β) :
    List (String × β) → List (String × β)
  | [] => [(k, f dflt)]
  | (k', v) :: t => if k' = k then (k', f v) :: t else (k', v) :: upsert k dflt f t

/-! ## Detailed table: `create_sunburst_table` (identical in both pages) -/

/-- One entry of the innermost list of `classification_totals` in
`create_sunburst_table`. -/
structure InstrEntry where
  instrument : String
  liquidity : String
  allocPct : ℚ
  allocDollar : ℚ
deriving Repr, DecidableEq

abbrev SubMap := List (String × List InstrEntry)
abbrev ACMap := List (String × SubMap)
abbrev ClassMap := List (String × ACMap)

/-- Loop body of the first loop of `create_sunburst_table`: record one fund. -/
def addAssetDetail (lk : Lookup) (tpv : ℚ) (m : ClassMap) (a : String) (p : ℚ) :
    ClassMap :=
  let e : InstrEntry :=
    ⟨getInstrument lk a, getLiquidityD lk a, p, p / 100 * tpv⟩
  upsert (getClassification lk a) []
    (fun acm => upsert (getAssetClass lk a) []
      (fun sm => upsert (getSubAssetClass lk a) [] (fun il => il ++ [e]) sm) acm) m

/-- The `classification_totals` dict after the first loop of
`create_sunburst_table`. -/
def classification_totals (assets : List (String × ℚ)) (tpv : ℚ) (lk : Lookup) :
    ClassMap :=
  assets.foldl (fun m ap => addAssetDetail lk tpv m ap.1 ap.2) []

/-- A row of the detailed hierarchy table (`None` numeric cells → `Option`). -/
structure DRow where
  classification : String
  assetClass : String
  subAssetClass : String
  liquidity : String
  instrument : String
  allocPct : Option ℚ
  allocDollar : Option ℚ
deriving Repr, DecidableEq

/-- Accumulated `classification_alloc_pct`: the triple loop summing
`Allocation (%)` over every instrument below a classification. -/
def classPct (acm : ACMap) : ℚ :=
  (acm.map (fun ac => (ac.2.map (fun s => (s.2.map (·.allocPct)).sum)).sum)).sum

/-- Accumulated `classification_alloc_dollar`. -/
def classDollar (acm : ACMap) : ℚ :=
  (acm.map (fun ac => (ac.2.map (fun s => (s.2.map (·.allocDollar)).sum)).sum)).sum

/-- Emission loop of `create_sunburst_table`: one classification subtotal row,
then per asset class a header row, per sub-asset class a header row, then the
instrument rows. -/
def flattenDetail (m : ClassMap) : List DRow :=
  m.flatMap (fun c =>
    ⟨c.1, "", "", "", "", some (round2 (classPct c.2)), some (round2 (classDollar c.2))⟩ ::
    c.2.flatMap (fun ac =>
      ⟨"", ac.1, "", "", "", none, none⟩ ::
      ac.2.flatMap (fun s =>
        ⟨"", "", s.1, "", "", none, none⟩ ::
        s.2.map (fun e =>
          ⟨"", "", "", e.liquidity, e.instrument, some e.allocPct, some e.allocDollar⟩))))

/-- `create_sunburst_table` (src/pages/2_Portfolio_Classification.py lines
13–59; textually identical in src/pages/portfolio.py lines 20–66). -/
def create_sunburst_table (assets : List (String × ℚ)) (tpv : ℚ) (lk : Lookup) :
    List DRow :=
  flattenDetail (classification_totals assets tpv lk)

/-! ## Summary table, page variant: `create_summary_table` in
`src/pages/2_Portfolio_Classification.py` -/

/-- The per-(classification, asset class, sub-asset class) accumulator dict of
`create_summary_table` (2_Portfolio_Classification variant). -/
structure SGroup where
  total_pct : ℚ
  total_value : ℚ
  weighted_yield : ℚ
  weighted_return : ℚ
  weighted_volatility : ℚ
  total_weight : ℚ
  yield_contribution : ℚ
  return_contribution : ℚ
deriving Repr, DecidableEq

/-- The zeroed initial accumulator passed to `setdefault`. -/
def SGroup.init : SGroup := ⟨0, 0, 0, 0, 0, 0, 0, 0⟩

/-- The `+=` block of the first loop of `create_summary_table`. -/
def SGroup.accum (g : SGroup) (p yld ret vol value : ℚ) : SGroup :=
  { g with
    total_pct := g.total_pct + p
    total_value := g.total_value + value
    weighted_yield := g.weighted_yield + p * yld
    weighted_return := g.weighted_return + p * ret
    weighted_volatility := g.weighted_volatility + p * vol
    total_weight := g.total_weight + p
    yield_contribution := g.yield_contribution + p * yld / 100
    return_contribution := g.return_contribution + p * ret / 100 }

abbrev SSubMap := List (String × SGroup)
abbrev SACMap := List (String × SSubMap)
abbrev SClassMap := List (String × SACMap)

/-- Loop body of the first loop of `create_summary_table`
(2_Portfolio_Classification variant): fold one fund into the nested dicts. -/
def addAssetSummary (lk : Lookup) (tpv : ℚ) (m : SClassMap) (a : String) (p : ℚ) :
    SClassMap :=
  let value := p / 100 * tpv
  upsert (getClassification lk a) []
    (fun acm => upsert (getAssetClass lk a) []
      (fun sm => upsert (getSubAssetClass lk a) SGroup.init
        (fun g => g.accum p (getYield lk a) (getReturn lk a) (getVolatility lk a) value)
        sm) acm) m

/-- The nested accumulator dict after the first loop of `create_summary_table`
(2_Portfolio_Classification variant). -/
def summary_totals (assets : List (String × ℚ)) (tpv : ℚ) (lk : Lookup) :
    SClassMap :=
  assets.foldl (fun m ap => addAssetSummary lk tpv m ap.1 ap.2) []

/-- A row of the summarized table (2_Portfolio_Classification variant):
three label columns then nine numeric columns (`None` → `Option`). -/
structure SRow where
  classification : String
  assetClass : String
  subAssetClass : String
  totalPct : Option ℚ
  totalValue : Option ℚ
  yieldPct : Option ℚ
  yieldDollar : Option ℚ
  returnPct : Option ℚ
  returnDollar : Option ℚ
  volatilityPct : Option ℚ
  yieldContribution : Option ℚ
  returnContribution : Option ℚ
deriving Repr, DecidableEq

/-- Sum of a sub-group field over all groups below a classification
(the inner accumulation loop of the emission phase). -/
def classFieldSum (f : SGroup → ℚ) (acm : SACMap) : ℚ :=
  (acm.map (fun ac => (ac.2.map (fun s => f s.2)).sum)).sum

/-- The classification subtotal row appended by `create_summary_table`
(2_Portfolio_Classification variant, lines 124–135). -/
def classSummaryRow (c : String) (acm : SACMap) : SRow :=
  let pct := classFieldSum (·.total_pct) acm
  let dollar := classFieldSum (·.total_value) acm
  let yld := classFieldSum (·.weighted_yield) acm
  let ret := classFieldSum (·.weighted_return) acm
  let vol := classFieldSum (·.weighted_volatility) acm
  let w := classFieldSum (·.total_weight) acm
  let yc := classFieldSum (·.yield_contribution) acm
  let rc := classFieldSum (·.return_contribution) acm
  ⟨c, "", "",
    some (round2 pct),
    some (round2 dollar),
    some (if 0 < w then round2 (yld / w) else 0),
    some (round2 (if 0 < w then dollar * (yld / w / 100) else 0)),
    some (if 0 < w then round2 (ret / w) else 0),
    some (round2 (if 0 < w then dollar * (ret / w / 100) else 0)),
    some (if 0 < w then round2 (vol / w) else 0),
    some (round2 yc),
    some (round2 rc)⟩

/-- The sub-asset-class row appended by `create_summary_table`
(2_Portfolio_Classification variant, lines 141–157). -/
def sacSummaryRow (sac : String) (g : SGroup) : SRow :=
  let avgYield := if 0 < g.total_weight then g.weighted_yield / g.total_weight else 0
  let avgReturn := if 0 < g.total_weight then g.weighted_return / g.total_weight else 0
  let avgVol := if 0 < g.total_weight then g.weighted_volatility / g.total_weight else 0
  ⟨"", "", sac,
    some (round2 g.total_pct),
    some (round2 g.total_value),
    some (round2 avgYield),
    some (round2 (g.total_value * avgYield / 100)),
    some (round2 avgReturn),
    some (round2 (g.total_value * avgReturn / 100)),
    some (round2 avgVol),
    some (round2 g.yield_contribution),
    some (round2 g.return_contribution)⟩

/-- Emission loop of `create_summary_table`
(2_Portfolio_Classification variant). -/
def flattenSummary (m : SClassMap) : List SRow :=
  m.flatMap (fun c =>
    classSummaryRow c.1 c.2 ::
    c.2.flatMap (fun ac =>
      ⟨"", ac.1, "", none, none, none, none, none, none, none, none, none⟩ ::
      ac.2.map (fun s => sacSummaryRow s.1 s.2)))

/-- `create_summary_table` (src/pages/2_Portfolio_Classification.py
lines 61–167). -/
def create_summary_table (assets : List (String × ℚ)) (tpv : ℚ) (lk : Lookup) :
    List SRow :=
  flattenSummary (summary_totals assets tpv lk)

/-! ## Summary table, page variant: `create_summary_table` in
`src/pages/portfolio.py` (adds "Public vs Private" and "Income/Growth") -/

/-- The accumulator dict of `create_summary_table` (portfolio.py variant):
the numeric fields plus the `public_private` / `income_growth` strings seeded
from the fund that creates the group. -/
structure PGroup where
  total_pct : ℚ
  total_value : ℚ
  weighted_yield : ℚ
  weighted_return : ℚ
  weighted_volatility : ℚ
  total_weight : ℚ
  yield_contribution : ℚ
  return_contribution : ℚ
  public_private : String
  income_growth : String
deriving Repr, DecidableEq

/-- The initial dict passed to `setdefault` (portfolio.py lines 149–160):
zeros plus the *current* fund's `public_private` and `income_growth`. -/
def PGroup.init (pp ig : String) : PGroup := ⟨0, 0, 0, 0, 0, 0, 0, 0, pp, ig⟩

/-- The `+=` block (portfolio.py lines 162–170); the two strings are not
touched. -/
def PGroup.accum (g : PGroup) (p yld ret vol value : ℚ) : PGroup :=
  { g with
    total_pct := g.total_pct + p
    total_value := g.total_value + value
    weighted_yield := g.weighted_yield + p * yld
    weighted_return := g.weighted_return + p * ret
    weighted_volatility := g.weighted_volatility + p * vol
    total_weight := g.total_weight + p
    yield_contribution := g.yield_contribution + p * yld / 100
    return_contribution := g.return_contribution + p * ret / 100 }

abbrev PSubMap := List (String × PGroup)
abbrev PACMap := List (String × PSubMap)
abbrev PClassMap := List (String × PACMap)

/-- Loop body of the first loop of `create_summary_table`
(portfolio.py variant). -/
def addAssetSummaryP (lk : Lookup) (tpv : ℚ) (m : PClassMap) (a : String) (p : ℚ) :
    PClassMap :=
  let value := p / 100 * tpv
  upsert (getClassification lk a) []
    (fun acm => upsert (getAssetClass lk a) []
      (fun sm => upsert (getSubAssetClass lk a)
        (PGroup.init (getPublicPrivate lk a) (getIncomeGrowth lk a))
        (fun g => g.accum p (getYield lk a) (getReturn lk a) (getVolatility lk a) value)
        sm) acm) m

/-- The nested accumulator dict after the first loop of `create_summary_table`
(portfolio.py variant). -/
def summary_totals_p (assets : List (String × ℚ)) (tpv : ℚ) (lk : Lookup) :
    PClassMap :=
  assets.foldl (fun m ap => addAssetSummaryP lk tpv m ap.1 ap.2) []

/-- A row of the summarized table (portfolio.py variant): five label columns
then nine numeric columns. -/
structure PRow where
  classification : String
  assetClass : String
  subAssetClass : String
  publicPrivate : String
  incomeGrowth : String
  totalPct : Option ℚ
  totalValue : Option ℚ
  yieldPct : Option ℚ
  yieldDollar : Option ℚ
  returnPct : Option ℚ
  returnDollar : Option ℚ
  volatilityPct : Option ℚ
  yieldContribution : Option ℚ
  returnContribution : Option ℚ
deriving Repr, DecidableEq

/-- Sum of a group field over all groups below a classification
(portfolio.py variant emission phase, lines 185–194). -/
def classFieldSumP (f : PGroup → ℚ) (acm : PACMap) : ℚ :=
  (acm.map (fun ac => (ac.2.map (fun s => f s.2)).sum)).sum

/-- The classification subtotal row (portfolio.py lines 197–208). -/
def classSummaryRowP (c : String) (acm : PACMap) : PRow :=
  let pct := classFieldSumP (·.total_pct) acm
  let dollar := classFieldSumP (·.total_value) acm
  let yld := classFieldSumP (·.weighted_yield) acm
  let ret := classFieldSumP (·.weighted_return) acm
  let vol := classFieldSumP (·.weighted_volatility) acm
  let w := classFieldSumP (·.total_weight) acm
  let yc := classFieldSumP (·.yield_contribution) acm
  let rc := classFieldSumP (·.return_contribution) acm
  ⟨c, "", "", "", "",
    some (round2 pct),
    some (round2 dollar),
    some (if 0 < w then round2 (yld / w) else 0),
    some (round2 (if 0 < w then dollar * (yld / w / 100) else 0)),
    some (if 0 < w then round2 (ret / w) else 0),
    some (round2 (if 0 < w then dollar * (ret / w / 100) else 0)),
    some (if 0 < w then round2 (vol / w) else 0),
    some (round2 yc),
    some (round2 rc)⟩

/-- The sub-asset-class row (portfolio.py lines 214–232): carries the group's
stored `public_private` / `income_growth` strings. -/
def sacSummaryRowP (sac : String) (g : PGroup) : PRow :=
  let avgYield := if 0 < g.total_weight then g.weighted_yield / g.total_weight else 0
  let avgReturn := if 0 < g.total_weight then g.weighted_return / g.total_weight else 0
  let avgVol := if 0 < g.total_weight then g.weighted_volatility / g.total_weight else 0
  ⟨"", "", sac, g.public_private, g.income_growth,
    some (round2 g.total_pct),
    some (round2 g.total_value),
    some (round2 avgYield),
    some (round2 (g.total_value * avgYield / 100)),
    some (round2 avgReturn),
    some (round2 (g.total_value * avgReturn / 100)),
    some (round2 avgVol),
    some (round2 g.yield_contribution),
    some (round2 g.return_contribution)⟩

/-- Emission loop of `create_summary_table` (portfolio.py variant). -/
def flattenSummaryP (m : PClassMap) : List PRow :=
  m.flatMap (fun c =>
    classSummaryRowP c.1 c.2 ::
    c.2.flatMap (fun ac =>
      ⟨"", ac.1, "", "", "", none, none, none, none, none, none, none, none, none⟩ ::
      ac.2.map (fun s => sacSummaryRowP s.1 s.2)))

/-- `create_summary_table` (src/pages/portfolio.py lines 130–243). -/
def create_summary_table_p (assets : List (String × ℚ)) (tpv : ℚ) (lk : Lookup) :
    List PRow :=
  flattenSummaryP (summary_totals_p assets tpv lk)

/-! ## Income/Growth × Liquidity cross-tabulation (`src/pages/portfolio.py`) -/

/-- Per-sub-asset-class accumulator inside a category. -/
structure SubCat where
  pct : ℚ
  value : ℚ
deriving Repr, DecidableEq

/-- One category of `allocation_data`. -/
structure Cat where
  pct : ℚ
  value : ℚ
  sub_assets : List (String × SubCat)
deriving Repr, DecidableEq

def Cat.empty : Cat := ⟨0, 0, []⟩

/-- The seven pre-seeded categories of `allocation_data`
(portfolio.py lines 362–370), in dict insertion order. -/
def seededAllocationData : List (String × Cat) :=
  [("Cash & Equivalent", Cat.empty),
   ("Growth (Liquid)", Cat.empty),
   ("Growth (Semi)", Cat.empty),
   ("Growth (Illiquid)", Cat.empty),
   ("Income (Liquid)", Cat.empty),
   ("Income (Semi)", Cat.empty),
   ("Income (Illiquid)", Cat.empty)]

/-- `liquidity_map.get(liquidity, liquidity)` (portfolio.py lines 355–359, 388). -/
def liquidityKey (s : String) : String :=
  if s = "Liquid" then "Liquid"
  else if s = "Semi-liquid" then "Semi"
  else if s = "Illiquid" then "Illiquid"
  else s

/-- Category derivation (portfolio.py lines 383–389). -/
def categoryOf (lk : Lookup) (a : String) : String :=
  if getAssetClass lk a = "Cash & Equivalent" then "Cash & Equivalent"
  else getIncomeGrowth lk a ++ " (" ++ liquidityKey (getLiquidityIG lk a) ++ ")"

/-- Loop body of `create_income_growth_allocation` (portfolio.py
lines 373–407): fold one fund into `allocation_data`. -/
def addAssetIG (lk : Lookup) (tpv : ℚ) (m : List (String × Cat)) (a : String) (p : ℚ) :
    List (String × Cat) :=
  let value := p / 100 * tpv
  upsert (categoryOf lk a) Cat.empty
    (fun c =>
      { c with
        pct := c.pct + p
        value := c.value + value
        sub_assets := upsert (getSubAssetClass lk a) ⟨0, 0⟩
          (fun s => ⟨s.pct + p, s.value + value⟩) c.sub_assets }) m

/-- `create_income_growth_allocation` (src/pages/portfolio.py lines 353–409). -/
def create_income_growth_allocation (assets : List (String × ℚ)) (tpv : ℚ)
    (lk : Lookup) : List (String × Cat) :=
  assets.foldl (fun m ap => addAssetIG lk tpv m ap.1 ap.2) seededAllocationData

/-- A row of the income/growth table. -/
structure IGRow where
  typ : String
  subAsset : String
  pct : Option ℚ
  value : Option ℚ
deriving Repr, DecidableEq

/-- The fixed display order of the seven canonical categories
(portfolio.py lines 415–423). -/
def category_order : List String :=
  ["Growth (Liquid)", "Growth (Semi)", "Growth (Illiquid)",
   "Income (Liquid)", "Income (Semi)", "Income (Illiquid)",
   "Cash & Equivalent"]

/-- `k in d` / `d[k]` for the association-list model. -/
def alistFind {β : Type} (m : List (String × β)) (k : String) : Option β :=
  (m.find? (fun p => p.1 = k)).map (·.2)

/-- Sum of `data["pct"]` over all of `allocation_data.values()`. -/
def catPctSum (m : List (String × Cat)) : ℚ := (m.map (·.2.pct)).sum

/-- Sum of `data["value"]` over all of `allocation_data.values()`. -/
def catValueSum (m : List (String × Cat)) : ℚ := (m.map (·.2.value)).sum

/-- `create_income_growth_table` (src/pages/portfolio.py lines 411–447):
iterate the fixed `category_order`, skipping absent categories, emitting a
header row then the sub-asset rows; finally the "Total" row summing over
*all* of `allocation_data` (dynamically added categories included). -/
def create_income_growth_table (m : List (String × Cat)) : List IGRow :=
  (category_order.flatMap (fun cat =>
    match alistFind m cat with
    | none => []
    | some data =>
      ⟨cat, "", none, none⟩ ::
      data.sub_assets.map (fun s =>
        ⟨"", s.1, some (round2 s.2.pct), some (round2 s.2.value)⟩)))
  ++ [⟨"Total", "", some (round2 (catPctSum m)), some (round2 (catValueSum m))⟩]

/-! ## Allocation normalization and the `main` gating
(identical guard in both pages' `main`) -/

inductive NormError where
  | zeroPortfolioValue
deriving Repr, DecidableEq

/-- The dollar-mode normalization inlined in `main`
(2_Portfolio_Classification.py lines 295–299 / portfolio.py lines 583–589):
`total_portfolio_value = sum(allocations.values())`; the percentage map is
built only under the `total_portfolio_value > 0` guard, otherwise the page
stops with a warning (modelled as the `zeroPortfolioValue` signal). -/
def normalizeAllocations (allocations : List (String × ℚ)) :
    Except NormError (List (String × ℚ) × ℚ) :=
  let total := (allocations.map (·.2)).sum
  if 0 < total then
    .ok (allocations.map (fun fa => (fa.1, fa.2 / total * 100)), total)
  else
    .error .zeroPortfolioValue

/-- The aggregation pipeline of `main` in
src/pages/2_Portfolio_Classification.py (lines 295–330): detailed table and
summary table, produced only when the total is positive. -/
def mainPage2 (allocations : List (String × ℚ)) (lk : Lookup) :
    Option (List DRow × List SRow) :=
  match normalizeAllocations allocations with
  | .error _ => none
  | .ok (pcts, tpv) =>
    some (create_sunburst_table pcts tpv lk, create_summary_table pcts tpv lk)

/-- The aggregation pipeline of `main` in src/pages/portfolio.py
(lines 583–728): detailed table, summary table, and income/growth table. -/
def mainPagePortfolio (allocations : List (String × ℚ)) (lk : Lookup) :
    Option (List DRow × List PRow × List IGRow) :=
  match normalizeAllocations allocations with
  | .error _ => none
  | .ok (pcts, tpv) =>
    some (create_sunburst_table pcts tpv lk,
      create_summary_table_p pcts tpv lk,
      create_income_growth_table (create_income_growth_allocation pcts tpv lk))

/-! ## Generic association-list lemmas -/

/-- Sum of a numeric measure of the values of an association list. -/
def alistSum {β : Type} (μ : β → ℚ) (m : List (String × β)) : ℚ :=
  (m.map (fun p => μ p.2)).sum

theorem alistSum_nil {β : Type} (μ : β → ℚ) : alistSum μ [] = 0 := rfl

/-- `upsert` shifts the measured sum by `c` when the update shifts every
value's measure by `c` and the default measures to `0`. -/
theorem alistSum_upsert {β : Type} (μ : β → ℚ) (k : String) (d : β) (f : β → β)
    (c : ℚ) (hf : ∀ v, μ (f v) = μ v + c) (hd : μ d = 0) :
    ∀ m : List (String × β), alistSum μ (upsert k d f m) = alistSum μ m + c := by
  intro m
  induction m with
  | nil => simp [upsert, alistSum, hf, hd]
  | cons hd' tl ih =>
    obtain ⟨k', v⟩ := hd'
    by_cases hk : k' = k
    · simp [upsert, hk, alistSum, hf]
      ring
    · simp only [upsert, if_neg hk, alistSum, List.map_cons, List.sum_cons] at *
      rw [ih]
      ring

theorem alistFind_nil {β : Type} (k : String) :
    alistFind ([] : List (String × β)) k = none := rfl

theorem alistFind_cons {β : Type} (a : String) (v : β) (tl : List (String × β))
    (k : String) :
    alistFind ((a, v) :: tl) k = if a = k then some v else alistFind tl k := by
  by_cases h : a = k <;> simp [alistFind, List.find?_cons, h]

/-- Looking up in an `upsert`ed association list. -/
theorem alistFind_upsert {β : Type} (k k' : String) (d : β) (f : β → β) :
    ∀ m : List (String × β),
      alistFind (upsert k d f m) k' =
        if k' = k then some (f (((alistFind m k).getD d))) else alistFind m k' := by
  intro m
  induction m with
  | nil =>
    by_cases h : k' = k
    · subst h; simp [upsert, alistFind_cons, alistFind_nil]
    · have h2 : ¬k = k' := fun e => h e.symm
      simp [upsert, alistFind_cons, alistFind_nil, h, h2]
  | cons hd tl ih =>
    obtain ⟨a, v⟩ := hd
    by_cases hak : a = k
    · subst hak
      by_cases hk' : k' = a
      · subst hk'; simp [upsert, alistFind_cons]
      · have h2 : ¬a = k' := fun e => hk' e.symm
        simp [upsert, alistFind_cons, hk', h2]
    · by_cases hk'a : k' = a
      · subst hk'a
        simp [upsert, hak, alistFind_cons]
      · have h2 : ¬a = k' := fun e => hk'a e.symm
        simp [upsert, hak, alistFind_cons, h2, ih]

/-- The key list after an `upsert`: unchanged when `k` is present, else `k`
is appended (dict insertion order). -/
theorem upsert_keys {β : Type} (k : String) (d : β) (f : β → β) :
    ∀ m : List (String × β),
      (upsert k d f m).map (·.1) =
        if k ∈ m.map (·.1) then m.map (·.1) else m.map (·.1) ++ [k] := by
  intro m
  induction m with
  | nil => simp [upsert]
  | cons hd tl ih =>
    obtain ⟨a, v⟩ := hd
    by_cases hak : a = k
    · subst hak; simp [upsert]
    · have h2 : ¬k = a := fun e => hak e.symm
      by_cases hk : k ∈ tl.map (·.1) <;> simp [upsert, hak, h2, ih, hk]

/-- Members of flattened values survive an `upsert` whose update function
only grows each value's contribution. -/
theorem mem_flatMap_upsert {β γ : Type} (g : β → List γ) (k : String) (d : β)
    (f : β → β) (hf : ∀ v, ∀ x ∈ g v, x ∈ g (f v)) (x : γ) :
    ∀ m : List (String × β), x ∈ m.flatMap (fun p => g p.2) →
      x ∈ (upsert k d f m).flatMap (fun p => g p.2) := by
  intro m
  induction m with
  | nil => simp
  | cons hd tl ih =>
    obtain ⟨a, v⟩ := hd
    intro hx
    by_cases hak : a = k
    · subst hak
      simp only [upsert, if_pos rfl, List.flatMap_cons] at hx ⊢
      rcases List.mem_append.mp hx with h | h
      · exact List.mem_append.mpr (Or.inl (hf v x h))
      · exact List.mem_append.mpr (Or.inr h)
    · simp only [upsert, if_neg hak, List.flatMap_cons] at hx ⊢
      rcases List.mem_append.mp hx with h | h
      · exact List.mem_append.mpr (Or.inl h)
      · exact List.mem_append.mpr (Or.inr (ih h))

/-- After an `upsert` whose update function forces `x` into every possible
updated value, `x` is among the flattened values. -/
theorem mem_flatMap_upsert_self {β γ : Type} (g : β → List γ) (k : String)
    (d : β) (f : β → β) (x : γ) (h : ∀ v, x ∈ g (f v)) :
    ∀ m : List (String × β), x ∈ (upsert k d f m).flatMap (fun p => g p.2) := by
  intro m
  induction m with
  | nil => simpa [upsert] using h d
  | cons hd tl ih =>
    obtain ⟨a, v⟩ := hd
    by_cases hak : a = k
    · subst hak
      simp only [upsert, if_pos rfl, List.flatMap_cons]
      exact List.mem_append.mpr (Or.inl (h v))
    · simp only [upsert, if_neg hak, List.flatMap_cons]
      exact List.mem_append.mpr (Or.inr ih)

/-- Splitting a sum of an if-then-else over a filter. -/
theorem sum_map_ite {α : Type} (p : α → Prop) [DecidablePred p] (g : α → ℚ) :
    ∀ l : List α,
      (l.map (fun x => if p x then g x else 0)).sum = ((l.filter (fun x => p x)).map g).sum := by
  intro l
  induction l with
  | nil => rfl
  | cons hd tl ih =>
    by_cases h : p hd <;> simp [List.filter_cons, h, ih]

theorem round2_zero : round2 0 = 0 := by norm_num [round2, pyRound]

theorem round2_hundred : round2 100 = 100 := by norm_num [round2, pyRound]

/-! ## Claim C9: zero total blocks everything -/

/-- C9: a dollar-mode allocation map whose values sum to 0 makes the
normalizer signal `zeroPortfolioValue`, and neither page's `main` performs
any aggregation (no detailed, summary, or income/growth table is built). -/
theorem C9_zero_total_blocks_aggregation (allocations : List (String × ℚ))
    (lk lk' : Lookup) (h : (allocations.map (·.2)).sum = 0) :
    normalizeAllocations allocations = .error .zeroPortfolioValue ∧
      mainPage2 allocations lk = none ∧
      mainPagePortfolio allocations lk' = none := by
  have hn : normalizeAllocations allocations = .error .zeroPortfolioValue := by
    simp [normalizeAllocations, h]
  exact ⟨hn, by simp [mainPage2, hn], by simp [mainPagePortfolio, hn]⟩

/-- Witness for C9 at the concrete input `{A: $0, B: $0}`. -/
theorem C9_witness :
    ([("A", (0 : ℚ)), ("B", 0)].map (·.2)).sum = 0 ∧
      normalizeAllocations [("A", (0 : ℚ)), ("B", 0)] = .error .zeroPortfolioValue ∧
      mainPage2 [("A", (0 : ℚ)), ("B", 0)] [] = none ∧
      mainPagePortfolio [("A", (0 : ℚ)), ("B", 0)] [] = none := by
  have h : ([("A", (0 : ℚ)), ("B", 0)].map (·.2)).sum = 0 := by norm_num
  exact ⟨h, C9_zero_total_blocks_aggregation [("A", 0), ("B", 0)] [] [] h⟩

/-! ## Claim C5: the income/growth "Total" row -/

theorem catPctSum_addAssetIG (lk : Lookup) (tpv : ℚ) (m : List (String × Cat))
    (a : String) (p : ℚ) :
    catPctSum (addAssetIG lk tpv m a p) = catPctSum m + p := by
  simp only [addAssetIG]
  exact alistSum_upsert (fun (c : Cat) => c.pct) _ _ _ p (fun v => rfl) rfl m

theorem catValueSum_addAssetIG (lk : Lookup) (tpv : ℚ) (m : List (String × Cat))
    (a : String) (p : ℚ) :
    catValueSum (addAssetIG lk tpv m a p) = catValueSum m + p / 100 * tpv := by
  simp only [addAssetIG]
  exact alistSum_upsert (fun (c : Cat) => c.value) _ _ _ (p / 100 * tpv) (fun v => rfl) rfl m

theorem catPctSum_fold (lk : Lookup) (tpv : ℚ) :
    ∀ (assets : List (String × ℚ)) (m : List (String × Cat)),
      catPctSum (assets.foldl (fun m ap => addAssetIG lk tpv m ap.1 ap.2) m) =
        catPctSum m + (assets.map (·.2)).sum := by
  intro assets
  induction assets with
  | nil => simp
  | cons hd tl ih =>
    intro m
    simp only [List.foldl_cons, List.map_cons, List.sum_cons]
    rw [ih, catPctSum_addAssetIG]
    ring

theorem catValueSum_fold (lk : Lookup) (tpv : ℚ) :
    ∀ (assets : List (String × ℚ)) (m : List (String × Cat)),
      catValueSum (assets.foldl (fun m ap => addAssetIG lk tpv m ap.1 ap.2) m) =
        catValueSum m + (assets.map (·.2)).sum / 100 * tpv := by
  intro assets
  induction assets with
  | nil => simp
  | cons hd tl ih =>
    intro m
    simp only [List.foldl_cons, List.map_cons, List.sum_cons]
    rw [ih, catValueSum_addAssetIG]
    ring

/-- C5: the final "Total" row of the income/growth table carries (rounded)
the sum of `pct` and `value` over *all* categories of `allocation_data`
(the seven canonical ones plus any dynamically added); these sums equal the
un-grouped input totals: total pct = sum of all allocation percentages, total
value = that sum ÷ 100 × `total_portfolio_value`. For a canonical allocation
(percentages summing to 100) the Total row is exactly `100` and
`round2 total_portfolio_value`. -/
theorem C5_income_growth_total_row (assets : List (String × ℚ)) (tpv : ℚ)
    (lk : Lookup) :
    (create_income_growth_table (create_income_growth_allocation assets tpv lk)).getLast? =
      some ⟨"Total", "",
        some (round2 (catPctSum (create_income_growth_allocation assets tpv lk))),
        some (round2 (catValueSum (create_income_growth_allocation assets tpv lk)))⟩ ∧
    catPctSum (create_income_growth_allocation assets tpv lk) =
      (assets.map (·.2)).sum ∧
    catValueSum (create_income_growth_allocation assets tpv lk) =
      (assets.map (·.2)).sum / 100 * tpv ∧
    ((assets.map (·.2)).sum = 100 →
      (create_income_growth_table (create_income_growth_allocation assets tpv lk)).getLast? =
        some ⟨"Total", "", some 100, some (round2 tpv)⟩) := by
  have hpct : catPctSum (create_income_growth_allocation assets tpv lk) =
      (assets.map (·.2)).sum := by
    rw [create_income_growth_allocation, catPctSum_fold]
    norm_num [catPctSum, seededAllocationData, Cat.empty]
  have hval : catValueSum (create_income_growth_allocation assets tpv lk) =
      (assets.map (·.2)).sum / 100 * tpv := by
    rw [create_income_growth_allocation, catValueSum_fold]
    norm_num [catValueSum, seededAllocationData, Cat.empty]
  have hlast : (create_income_growth_table
      (create_income_growth_allocation assets tpv lk)).getLast? =
      some ⟨"Total", "",
        some (round2 (catPctSum (create_income_growth_allocation assets tpv lk))),
        some (round2 (catValueSum (create_income_growth_allocation assets tpv lk)))⟩ := by
    rw [create_income_growth_table, List.getLast?_concat]
  refine ⟨hlast, hpct, hval, fun h100 => ?_⟩
  rw [hlast, hpct, hval, h100]
  norm_num [round2_hundred]

/-- Witness for C5 at the canonical allocation `{A: 60%, B: 40%}`,
total value $1,000,000. -/
theorem C5_witness :
    (create_income_growth_table
      (create_income_growth_allocation [("A", 60), ("B", 40)] 1000000 [])).getLast? =
      some ⟨"Total", "", some 100, some (round2 1000000)⟩ :=
  (C5_income_growth_total_row [("A", 60), ("B", 40)] 1000000 []).2.2.2 (by norm_num)

/-! ## Claim C6: leaf dollars of the Detailed aggregation sum to the
total portfolio value -/

/-- Sum of `Allocation ($)` over every instrument entry of the detailed
aggregation tree. -/
def totalDollarSum (m : ClassMap) : ℚ := (m.map (fun c => classDollar c.2)).sum

theorem totalDollarSum_addAssetDetail (lk : Lookup) (tpv : ℚ) (m : ClassMap)
    (a : String) (p : ℚ) :
    totalDollarSum (addAssetDetail lk tpv m a p) = totalDollarSum m + p / 100 * tpv := by
  simp only [addAssetDetail]
  refine alistSum_upsert (fun (acm : ACMap) => classDollar acm)
    (getClassification lk a) [] _ (p / 100 * tpv) (fun v => ?_) rfl m
  refine alistSum_upsert
    (fun (sm : SubMap) => alistSum (fun (il : List InstrEntry) => (il.map (·.allocDollar)).sum) sm)
    (getAssetClass lk a) [] _ (p / 100 * tpv) (fun w => ?_) rfl v
  refine alistSum_upsert (fun (il : List InstrEntry) => (il.map (·.allocDollar)).sum)
    (getSubAssetClass lk a) [] _ (p / 100 * tpv) (fun u => ?_) rfl w
  simp

theorem totalDollarSum_fold (lk : Lookup) (tpv : ℚ) :
    ∀ (assets : List (String × ℚ)) (m : ClassMap),
      totalDollarSum (assets.foldl (fun m ap => addAssetDetail lk tpv m ap.1 ap.2) m) =
        totalDollarSum m + (assets.map (fun ap => ap.2 / 100 * tpv)).sum := by
  intro assets
  induction assets with
  | nil => simp
  | cons hd tl ih =>
    intro m
    simp only [List.foldl_cons, List.map_cons, List.sum_cons]
    rw [ih, totalDollarSum_addAssetDetail]
    ring

/-- C6: when the dollar-mode normalizer accepts a raw allocation map
(total > 0), the leaf `Allocation ($)` entries of the Detailed aggregation
sum exactly to the total portfolio value — in particular within the claimed
0.01 tolerance. -/
theorem C6_detailed_dollar_sum (allocations : List (String × ℚ)) (lk : Lookup)
    (pcts : List (String × ℚ)) (tpv : ℚ)
    (h : normalizeAllocations allocations = .ok (pcts, tpv)) :
    totalDollarSum (classification_totals pcts tpv lk) = tpv ∧
      |totalDollarSum (classification_totals pcts tpv lk) - tpv| ≤ 1 / 100 := by
  have hpos : 0 < (allocations.map (·.2)).sum := by
    by_contra hneg
    simp [normalizeAllocations, if_neg hneg] at h
  rw [normalizeAllocations] at h
  simp only [if_pos hpos, Except.ok.injEq, Prod.mk.injEq] at h
  obtain ⟨hp, ht⟩ := h
  subst ht
  subst hp
  have hne : (allocations.map (·.2)).sum ≠ 0 := ne_of_gt hpos
  have hmain : totalDollarSum
      (classification_totals
        (allocations.map (fun fa => (fa.1, fa.2 / (allocations.map (·.2)).sum * 100)))
        ((allocations.map (·.2)).sum) lk) = (allocations.map (·.2)).sum := by
    rw [classification_totals, totalDollarSum_fold, List.map_map]
    have hfa : ∀ fa ∈ allocations,
        ((fun ap => ap.2 / 100 * (allocations.map (·.2)).sum) ∘
          fun fa => (fa.1, fa.2 / (allocations.map (·.2)).sum * 100)) fa = fa.2 := by
      intro fa _
      simp only [Function.comp]
      field_simp
      ring
    rw [List.map_congr_left hfa]
    simp [totalDollarSum]
  exact ⟨hmain, by rw [hmain]; simp⟩

/-- Witness for C6 at the raw dollar allocation `{A: $600,000, B: $400,000}`. -/
theorem C6_witness :
    normalizeAllocations [("A", (600000 : ℚ)), ("B", 400000)] =
      .ok ([("A", 60), ("B", 40)], 1000000) ∧
    totalDollarSum (classification_totals [("A", 60), ("B", 40)] 1000000 []) = 1000000 := by
  have h : normalizeAllocations [("A", (600000 : ℚ)), ("B", 400000)] =
      .ok ([("A", 60), ("B", 40)], 1000000) := by
    norm_num [normalizeAllocations]
  exact ⟨h, (C6_detailed_dollar_sum [("A", 600000), ("B", 400000)] [] _ _ h).1⟩

/-! ## Claim C4: defaults for funds missing from the lookup -/

/-- C4 counterexample: for the missing fund "C", the detailed aggregation
does default Liquidity to "Illiquid", but the income/growth cross-tabulation
reads Liquidity with default "" (portfolio.py line 378), so "C" is filed
under the dynamic category " ()" — not under any Illiquid tier — refuting
the claim that every core operation resolves `Liquidity="Illiquid"`. -/
theorem C4_counterexample :
    getLiquidityD [] "C" = "Illiquid" ∧
    getLiquidityIG [] "C" = "" ∧
    getLiquidityIG [] "C" ≠ getLiquidityD [] "C" ∧
    categoryOf [] "C" = " ()" ∧
    alistFind (create_income_growth_allocation [("C", 100)] 1000 []) " ()" =
      some ⟨100, 1000, [("", ⟨100, 1000⟩)]⟩ ∧
    alistFind (create_income_growth_allocation [("C", 100)] 1000 []) " (Illiquid)" =
      none := by
  refine ⟨rfl, rfl, by decide, rfl, ?_, ?_⟩ <;>
    norm_num +decide [create_income_growth_allocation, seededAllocationData,
      addAssetIG, upsert, categoryOf, getAssetClass, getIncomeGrowth,
      getLiquidityIG, getSubAssetClass, findAttrs, liquidityKey, alistFind_cons,
      alistFind_nil, Cat.empty]

/-- C4 amended: a fund absent from the lookup resolves to
Classification="Alternative", AssetClass="", SubAssetClass="",
instrumentName=fund id in all operations; the detailed aggregation defaults
Liquidity to "Illiquid" (shown on its leaf row), while the income/growth
cross-tabulation defaults Liquidity to "" and so derives the category " ()";
nothing fails. -/
theorem C4_amended_missing_fund_defaults (lk : Lookup) (a : String) (p tpv : ℚ)
    (h : findAttrs lk a = none) :
    getClassification lk a = "Alternative" ∧
    getAssetClass lk a = "" ∧
    getSubAssetClass lk a = "" ∧
    getInstrument lk a = a ∧
    getLiquidityD lk a = "Illiquid" ∧
    getLiquidityIG lk a = "" ∧
    categoryOf lk a = " ()" ∧
    create_sunburst_table [(a, p)] tpv lk =
      [⟨"Alternative", "", "", "", "", some (round2 p), some (round2 (p / 100 * tpv))⟩,
       ⟨"", "", "", "", "", none, none⟩,
       ⟨"", "", "", "", "", none, none⟩,
       ⟨"", "", "", "Illiquid", a, some p, some (p / 100 * tpv)⟩] := by
  refine ⟨?_, ?_, ?_, ?_, ?_, ?_, ?_, ?_⟩ <;>
    simp [getClassification, getAssetClass, getSubAssetClass, getInstrument,
      getLiquidityD, getLiquidityIG, categoryOf, getIncomeGrowth, liquidityKey, h,
      create_sunburst_table, classification_totals, addAssetDetail, upsert,
      flattenDetail, classPct, classDollar]

/-- Witness for C4 (amended) at the missing fund "C", 50%, $1,000 total. -/
theorem C4_witness :
    findAttrs [] "C" = none ∧
    (getClassification [] "C" = "Alternative" ∧
     getAssetClass [] "C" = "" ∧
     getSubAssetClass [] "C" = "" ∧
     getInstrument [] "C" = "C" ∧
     getLiquidityD [] "C" = "Illiquid" ∧
     getLiquidityIG [] "C" = "" ∧
     categoryOf [] "C" = " ()" ∧
     create_sunburst_table [("C", 50)] 1000 [] =
       [⟨"Alternative", "", "", "", "", some (round2 50), some (round2 (50 / 100 * 1000))⟩,
        ⟨"", "", "", "", "", none, none⟩,
        ⟨"", "", "", "", "", none, none⟩,
        ⟨"", "", "", "Illiquid", "C", some 50, some (50 / 100 * 1000)⟩]) :=
  ⟨rfl, C4_amended_missing_fund_defaults [] "C" 50 1000 rfl⟩

/-! ## Claim C3: dynamically-added income/growth categories -/

/-- Specification-side definition, following the spec's words: the
dynamically-added categories (those outside the seven canonical ones),
in first-seen order, starting from already-collected `acc`. -/
def specExtraCategoriesFrom (lk : Lookup) (assets : List (String × ℚ))
    (acc : List String) : List String :=
  assets.foldl
    (fun acc ap =>
      if categoryOf lk ap.1 ∈ seededAllocationData.map (·.1) ++ acc then acc
      else acc ++ [categoryOf lk ap.1]) acc

/-- Specification-side definition: all dynamically-added categories of an
allocation, in first-seen order. -/
def specExtraCategories (lk : Lookup) (assets : List (String × ℚ)) : List String :=
  specExtraCategoriesFrom lk assets []

theorem addAssetIG_keys (lk : Lookup) (tpv : ℚ) (m : List (String × Cat))
    (a : String) (p : ℚ) :
    (addAssetIG lk tpv m a p).map (·.1) =
      if categoryOf lk a ∈ m.map (·.1) then m.map (·.1)
      else m.map (·.1) ++ [categoryOf lk a] := by
  simp only [addAssetIG]
  exact upsert_keys _ _ _ m

theorem ig_keys_fold (lk : Lookup) (tpv : ℚ) :
    ∀ (assets : List (String × ℚ)) (m : List (String × Cat)) (acc : List String),
      m.map (·.1) = seededAllocationData.map (·.1) ++ acc →
      (assets.foldl (fun m ap => addAssetIG lk tpv m ap.1 ap.2) m).map (·.1) =
        seededAllocationData.map (·.1) ++ specExtraCategoriesFrom lk assets acc := by
  intro assets
  induction assets with
  | nil => intro m acc h; simpa [specExtraCategoriesFrom] using h
  | cons hd tl ih =>
    intro m acc h
    simp only [List.foldl_cons, specExtraCategoriesFrom] at *
    by_cases hc : categoryOf lk hd.1 ∈ seededAllocationData.map (·.1) ++ acc
    · have hkeys : (addAssetIG lk tpv m hd.1 hd.2).map (·.1) =
          seededAllocationData.map (·.1) ++ acc := by
        rw [addAssetIG_keys, h, if_pos hc]
      simpa [hc] using ih (addAssetIG lk tpv m hd.1 hd.2) acc hkeys
    · have hkeys : (addAssetIG lk tpv m hd.1 hd.2).map (·.1) =
          seededAllocationData.map (·.1) ++ (acc ++ [categoryOf lk hd.1]) := by
        rw [addAssetIG_keys, h, if_neg hc, List.append_assoc]
      simpa [hc] using ih (addAssetIG lk tpv m hd.1 hd.2) (acc ++ [categoryOf lk hd.1]) hkeys

/-- Every row of the income/growth table bears a canonical category label,
an empty label (sub-asset rows), or "Total" — never a dynamic category. -/
theorem ig_table_row_labels (m : List (String × Cat)) :
    ∀ r ∈ create_income_growth_table m,
      r.typ ∈ category_order ∨ r.typ = "" ∨ r.typ = "Total" := by
  intro r hr
  rw [create_income_growth_table] at hr
  rcases List.mem_append.mp hr with h | h
  · obtain ⟨cat, hcat, hrc⟩ := List.mem_flatMap.mp h
    cases hfind : alistFind m cat with
    | none => rw [hfind] at hrc; simp at hrc
    | some data =>
      rw [hfind] at hrc
      rcases List.mem_cons.mp hrc with h' | h'
      · subst h'; exact Or.inl hcat
      · obtain ⟨s, _, hs⟩ := List.mem_map.mp h'
        subst hs; exact Or.inr (Or.inl rfl)
  · simp only [List.mem_singleton] at h
    subst h; exact Or.inr (Or.inr rfl)

/-- C3 amended: a fund whose derived category is outside the seven canonical
ones does append that category to `allocation_data` after the canonical seven
(in first-seen order), but the emitted income/growth table never contains a
header row for it: the table iterates only the fixed canonical
`category_order` (plus the final "Total" row, which does absorb the dynamic
categories' sums). -/
theorem C3_amended_dynamic_categories (assets : List (String × ℚ)) (tpv : ℚ)
    (lk : Lookup) :
    (create_income_growth_allocation assets tpv lk).map (·.1) =
      seededAllocationData.map (·.1) ++ specExtraCategories lk assets ∧
    (∀ r ∈ create_income_growth_table (create_income_growth_allocation assets tpv lk),
      r.typ ∈ category_order ∨ r.typ = "" ∨ r.typ = "Total") := by
  constructor
  · exact ig_keys_fold lk tpv assets seededAllocationData [] (by simp)
  · exact ig_table_row_labels _

/-- Lookup used by the C3 counterexample and the C3 witness: fund "X" has
the Income/Growth value "Growth & Income", deriving the non-canonical
category "Growth & Income (Liquid)". -/
def lkC3 : Lookup :=
  [("X", ⟨"Alt", "AC", "SAC", "Liquid", "X", "Public", "Growth & Income", 0, 0, 0⟩)]

/-- C3 counterexample: the dynamic category "Growth & Income (Liquid)" is
recorded in `allocation_data` (appended after the seven canonical ones, with
fund X's full 100% / $1,000), yet the emitted income/growth table contains
no header row for it: its row labels are exactly the seven canonical headers
plus "Total". -/
theorem C3_counterexample :
    (create_income_growth_allocation [("X", 100)] 1000 lkC3).map (·.1) =
      ["Cash & Equivalent", "Growth (Liquid)", "Growth (Semi)", "Growth (Illiquid)",
       "Income (Liquid)", "Income (Semi)", "Income (Illiquid)",
       "Growth & Income (Liquid)"] ∧
    alistFind (create_income_growth_allocation [("X", 100)] 1000 lkC3)
      "Growth & Income (Liquid)" = some ⟨100, 1000, [("SAC", ⟨100, 1000⟩)]⟩ ∧
    (create_income_growth_table
        (create_income_growth_allocation [("X", 100)] 1000 lkC3)).map (·.typ) =
      ["Growth (Liquid)", "Growth (Semi)", "Growth (Illiquid)",
       "Income (Liquid)", "Income (Semi)", "Income (Illiquid)",
       "Cash & Equivalent", "Total"] ∧
    ¬ "Growth & Income (Liquid)" ∈
      (create_income_growth_table
        (create_income_growth_allocation [("X", 100)] 1000 lkC3)).map (·.typ) := by
  refine ⟨?_, ?_, ?_, ?_⟩ <;>
    norm_num +decide [create_income_growth_allocation, seededAllocationData,
      addAssetIG, upsert, categoryOf, getAssetClass, getIncomeGrowth,
      getLiquidityIG, getSubAssetClass, findAttrs, liquidityKey, alistFind_cons,
      alistFind_nil, Cat.empty, create_income_growth_table, category_order,
      catPctSum, catValueSum, round2, pyRound]

/-- Witness for C3 (amended) at the concrete fund "X" above. -/
theorem C3_witness :
    (create_income_growth_allocation [("X", (100 : ℚ))] 1000 lkC3).map (·.1) =
      seededAllocationData.map (·.1) ++ specExtraCategories lkC3 [("X", 100)] ∧
    (∀ r ∈ create_income_growth_table
        (create_income_growth_allocation [("X", (100 : ℚ))] 1000 lkC3),
      r.typ ∈ category_order ∨ r.typ = "" ∨ r.typ = "Total") :=
  C3_amended_dynamic_categories [("X", 100)] 1000 lkC3

/-! ## Claims C1/C2: which rows of the flatteners carry which numbers -/

/-- The classification subtotal row of each classification node is emitted
(with the rolled-up, rounded totals). -/
theorem mem_flattenDetail_classRow (m : ClassMap) (c : String) (acm : ACMap)
    (h : (c, acm) ∈ m) :
    (⟨c, "", "", "", "", some (round2 (classPct acm)),
      some (round2 (classDollar acm))⟩ : DRow) ∈ flattenDetail m := by
  rw [flattenDetail]
  exact List.mem_flatMap.mpr ⟨(c, acm), h, List.mem_cons_self _ _⟩

/-- In the detailed flattener, any row with a non-blank asset-class or
sub-asset-class label is a bare header row: all other labels blank and both
numeric cells `None`. -/
theorem flattenDetail_blank_headers (m : ClassMap) :
    ∀ r ∈ flattenDetail m,
      (r.assetClass ≠ "" → r = ⟨"", r.assetClass, "", "", "", none, none⟩) ∧
      (r.subAssetClass ≠ "" → r = ⟨"", "", r.subAssetClass, "", "", none, none⟩) := by
  intro r hr
  rw [flattenDetail] at hr
  obtain ⟨c, _, hrc⟩ := List.mem_flatMap.mp hr
  rcases List.mem_cons.mp hrc with h | h
  · subst h
    exact ⟨fun hne => absurd rfl hne, fun hne => absurd rfl hne⟩
  · obtain ⟨ac, _, hrac⟩ := List.mem_flatMap.mp h
    rcases List.mem_cons.mp hrac with h' | h'
    · subst h'
      exact ⟨fun _ => rfl, fun hne => absurd rfl hne⟩
    · obtain ⟨s, _, hrs⟩ := List.mem_flatMap.mp h'
      rcases List.mem_cons.mp hrs with h'' | h''
      · subst h''
        exact ⟨fun hne => absurd rfl hne, fun _ => rfl⟩
      · obtain ⟨e, _, hre⟩ := List.mem_map.mp h''
        subst hre
        exact ⟨fun hne => absurd rfl hne, fun hne => absurd rfl hne⟩

/-- The classification subtotal row of each summary classification node is
emitted. -/
theorem mem_flattenSummary_classRow (m : SClassMap) (c : String) (acm : SACMap)
    (h : (c, acm) ∈ m) : classSummaryRow c acm ∈ flattenSummary m := by
  rw [flattenSummary]
  exact List.mem_flatMap.mpr ⟨(c, acm), h, List.mem_cons_self _ _⟩

/-- In the summary flattener, any row with a non-blank asset-class label is a
bare header row: every numeric cell `None`. -/
theorem flattenSummary_blank_ac (m : SClassMap) :
    ∀ r ∈ flattenSummary m, r.assetClass ≠ "" →
      r = ⟨"", r.assetClass, "", none, none, none, none, none, none, none, none, none⟩ := by
  intro r hr hne
  rw [flattenSummary] at hr
  obtain ⟨c, _, hrc⟩ := List.mem_flatMap.mp hr
  rcases List.mem_cons.mp hrc with h | h
  · subst h; exact absurd rfl hne
  · obtain ⟨ac, _, hrac⟩ := List.mem_flatMap.mp h
    rcases List.mem_cons.mp hrac with h' | h'
    · subst h'; rfl
    · obtain ⟨s, _, hrs⟩ := List.mem_map.mp h'
      subst hrs; exact absurd rfl hne

/-- C1 amended: in the Detailed flattener only classification-level subtotal
rows carry numeric totals — the rounded roll-up (sum over all descendant
instruments, i.e. the sum of the children's rolled-up sums); asset-class and
sub-asset-class header rows are emitted with *blank* (`None`) numeric cells.
In the Summary flattener, classification rows carry the rolled-up sums over
all descendant groups and asset-class header rows are blank (sub-asset-class
rows carry their own group totals). -/
theorem C1_amended_subtotal_rows (assets : List (String × ℚ)) (tpv : ℚ)
    (lk : Lookup) :
    (∀ c acm, (c, acm) ∈ classification_totals assets tpv lk →
      (⟨c, "", "", "", "", some (round2 (classPct acm)),
        some (round2 (classDollar acm))⟩ : DRow) ∈ create_sunburst_table assets tpv lk) ∧
    (∀ r ∈ create_sunburst_table assets tpv lk, r.assetClass ≠ "" →
      r = ⟨"", r.assetClass, "", "", "", none, none⟩) ∧
    (∀ r ∈ create_sunburst_table assets tpv lk, r.subAssetClass ≠ "" →
      r = ⟨"", "", r.subAssetClass, "", "", none, none⟩) ∧
    (∀ c acm, (c, acm) ∈ summary_totals assets tpv lk →
      classSummaryRow c acm ∈ create_summary_table assets tpv lk) ∧
    (∀ r ∈ create_summary_table assets tpv lk, r.assetClass ≠ "" →
      r = ⟨"", r.assetClass, "", none, none, none, none, none, none, none, none, none⟩) :=
  ⟨fun c acm h => mem_flattenDetail_classRow _ c acm h,
   fun r hr => (flattenDetail_blank_headers _ r hr).1,
   fun r hr => (flattenDetail_blank_headers _ r hr).2,
   fun c acm h => mem_flattenSummary_classRow _ c acm h,
   fun r hr => flattenSummary_blank_ac _ r hr⟩

/-- Lookup used by several concrete instances: fund "A" is
Traditional / Equity / US, Liquid, with yield 5, return 10, volatility 15. -/
def lkC1 : Lookup :=
  [("A", ⟨"Traditional", "Equity", "US", "Liquid", "A-i", "Public", "Growth", 5, 10, 15⟩)]

/-- C1 counterexample: for the single-fund allocation `{A: 60%}` the
asset-class row ("Equity") and the sub-asset-class row ("US") of the detailed
table are emitted with `None` in both numeric columns even though those
nodes' rolled-up totals are 60% / $600 — they are not the subtotal rows the
claim requires. -/
theorem C1_counterexample :
    classification_totals [("A", 60)] 1000 lkC1 =
      [("Traditional", [("Equity", [("US", [⟨"A-i", "Liquid", 60, 600⟩])])])] ∧
    (create_sunburst_table [("A", 60)] 1000 lkC1)[1]? =
      some ⟨"", "Equity", "", "", "", none, none⟩ ∧
    (create_sunburst_table [("A", 60)] 1000 lkC1)[2]? =
      some ⟨"", "", "US", "", "", none, none⟩ ∧
    (create_sunburst_table [("A", 60)] 1000 lkC1)[1]? ≠
      some ⟨"", "Equity", "", "", "", some 60, some 600⟩ := by
  refine ⟨?_, ?_, ?_, ?_⟩ <;>
    norm_num +decide [create_sunburst_table, classification_totals, addAssetDetail,
      upsert, flattenDetail, classPct, classDollar, getClassification, getAssetClass,
      getSubAssetClass, getLiquidityD, getInstrument, findAttrs, lkC1, round2, pyRound]

/-- Witness for C1 (amended) at the allocation `{A: 60%}`. -/
theorem C1_witness :
    ("Traditional", [("Equity", [("US", [(⟨"A-i", "Liquid", 60, 600⟩ : InstrEntry)])])])
        ∈ classification_totals [("A", 60)] 1000 lkC1 ∧
    (⟨"Traditional", "", "", "", "",
      some (round2 (classPct [("Equity", [("US", [⟨"A-i", "Liquid", 60, 600⟩])])])),
      some (round2 (classDollar [("Equity", [("US", [⟨"A-i", "Liquid", 60, 600⟩])])]))⟩ : DRow)
        ∈ create_sunburst_table [("A", 60)] 1000 lkC1 := by
  have hmem : ("Traditional",
      [("Equity", [("US", [(⟨"A-i", "Liquid", 60, 600⟩ : InstrEntry)])])])
      ∈ classification_totals [("A", 60)] 1000 lkC1 := by
    norm_num +decide [classification_totals, addAssetDetail, upsert,
      getClassification, getAssetClass, getSubAssetClass, getLiquidityD,
      getInstrument, findAttrs, lkC1]
  exact ⟨hmem, (C1_amended_subtotal_rows [("A", 60)] 1000 lkC1).1 _ _ hmem⟩

/-- All instrument entries stored in the detailed aggregation tree. -/
def detailEntries (m : ClassMap) : List InstrEntry :=
  m.flatMap (fun c => c.2.flatMap (fun ac => ac.2.flatMap (·.2)))

/-- The instrument entry recorded for fund `a` at percentage `p`. -/
def entryOf (lk : Lookup) (tpv : ℚ) (a : String) (p : ℚ) : InstrEntry :=
  ⟨getInstrument lk a, getLiquidityD lk a, p, p / 100 * tpv⟩

theorem entryOf_mem_addAssetDetail (lk : Lookup) (tpv : ℚ) (m : ClassMap)
    (a : String) (p : ℚ) :
    entryOf lk tpv a p ∈ detailEntries (addAssetDetail lk tpv m a p) := by
  rw [detailEntries, addAssetDetail]
  refine mem_flatMap_upsert_self
    (fun acm => acm.flatMap (fun ac => ac.2.flatMap (·.2))) _ _ _ _
    (fun v => ?_) m
  refine mem_flatMap_upsert_self (fun sm => sm.flatMap (·.2)) _ _ _ _
    (fun w => ?_) v
  refine mem_flatMap_upsert_self (fun il => il) _ _ _ _ (fun u => ?_) w
  simp [entryOf]

theorem detailEntries_mono_addAssetDetail (lk : Lookup) (tpv : ℚ) (m : ClassMap)
    (a : String) (p : ℚ) (e : InstrEntry) (he : e ∈ detailEntries m) :
    e ∈ detailEntries (addAssetDetail lk tpv m a p) := by
  rw [detailEntries] at he
  rw [detailEntries, addAssetDetail]
  refine mem_flatMap_upsert (fun acm => acm.flatMap (fun ac => ac.2.flatMap (·.2)))
    _ _ _ (fun v x hx => ?_) e m he
  refine mem_flatMap_upsert (fun sm => sm.flatMap (·.2)) _ _ _
    (fun w y hy => ?_) x v hx
  refine mem_flatMap_upsert (fun il => il) _ _ _ (fun u z hz => ?_) y w hy
  simp [hz]

theorem detailEntries_mono_fold (lk : Lookup) (tpv : ℚ) :
    ∀ (assets : List (String × ℚ)) (m : ClassMap) (e : InstrEntry),
      e ∈ detailEntries m →
      e ∈ detailEntries
        (assets.foldl (fun m ap => addAssetDetail lk tpv m ap.1 ap.2) m) := by
  intro assets
  induction assets with
  | nil => intro m e he; exact he
  | cons hd tl ih =>
    intro m e he
    exact ih _ e (detailEntries_mono_addAssetDetail lk tpv m hd.1 hd.2 e he)

/-- Every input fund's (unrounded) entry is stored in the detailed tree. -/
theorem entryOf_mem_classification_totals (lk : Lookup) (tpv : ℚ) :
    ∀ (assets : List (String × ℚ)) (m : ClassMap) (a : String) (p : ℚ),
      (a, p) ∈ assets →
      entryOf lk tpv a p ∈ detailEntries
        (assets.foldl (fun m ap => addAssetDetail lk tpv m ap.1 ap.2) m) := by
  intro assets
  induction assets with
  | nil => intro m a p h; simp at h
  | cons hd tl ih =>
    intro m a p h
    rcases List.mem_cons.mp h with h' | h'
    · subst h'
      exact detailEntries_mono_fold lk tpv tl _ _
        (entryOf_mem_addAssetDetail lk tpv m a p)
    · exact ih _ a p h'

/-- Every stored entry's instrument row is emitted by the detailed flattener. -/
theorem mem_flattenDetail_instrRow (m : ClassMap) (e : InstrEntry)
    (he : e ∈ detailEntries m) :
    (⟨"", "", "", e.liquidity, e.instrument, some e.allocPct,
      some e.allocDollar⟩ : DRow) ∈ flattenDetail m := by
  rw [detailEntries] at he
  obtain ⟨c, hc, h1⟩ := List.mem_flatMap.mp he
  obtain ⟨ac, hac, h2⟩ := List.mem_flatMap.mp h1
  obtain ⟨s, hs, h3⟩ := List.mem_flatMap.mp h2
  rw [flattenDetail]
  refine List.mem_flatMap.mpr ⟨c, hc, List.mem_cons_of_mem _ ?_⟩
  refine List.mem_flatMap.mpr ⟨ac, hac, List.mem_cons_of_mem _ ?_⟩
  refine List.mem_flatMap.mpr ⟨s, hs, List.mem_cons_of_mem _ ?_⟩
  exact List.mem_map.mpr ⟨e, h3, rfl⟩

/-- C2 amended: the Detailed flattener emits each fund's leaf row with the
*unrounded* allocation values (the raw percentage and the exact
`pct/100 × total`), while the classification subtotal rows — the only other
rows carrying numbers — are rounded to 2 decimals at emission time from the
unrounded aggregates. -/
theorem C2_amended_leaf_rows_unrounded (assets : List (String × ℚ)) (tpv : ℚ)
    (lk : Lookup) (a : String) (p : ℚ) (h : (a, p) ∈ assets) :
    (⟨"", "", "", getLiquidityD lk a, getInstrument lk a, some p,
      some (p / 100 * tpv)⟩ : DRow) ∈ create_sunburst_table assets tpv lk ∧
    (∀ c acm, (c, acm) ∈ classification_totals assets tpv lk →
      (⟨c, "", "", "", "", some (round2 (classPct acm)),
        some (round2 (classDollar acm))⟩ : DRow) ∈ create_sunburst_table assets tpv lk) := by
  constructor
  · exact mem_flattenDetail_instrRow _ (entryOf lk tpv a p)
      (entryOf_mem_classification_totals lk tpv assets [] a p h)
  · exact fun c acm hc => mem_flattenDetail_classRow _ c acm hc

/-- C2 counterexample: with allocation 100/3 % the leaf row carries the exact
value 100/3, which differs from its 2-decimal rounding 33.33 — leaf
`InstrumentDetail` rows are *not* rounded at emission. -/
theorem C2_counterexample :
    (create_sunburst_table [("A", 100/3)] 300 lkC1)[3]? =
      some ⟨"", "", "", "Liquid", "A-i", some (100/3), some 100⟩ ∧
    round2 (100/3) = 3333/100 ∧
    (100 : ℚ)/3 ≠ 3333/100 := by
  refine ⟨?_, ?_, by norm_num⟩ <;>
    norm_num +decide [create_sunburst_table, classification_totals, addAssetDetail,
      upsert, flattenDetail, classPct, classDollar, getClassification, getAssetClass,
      getSubAssetClass, getLiquidityD, getInstrument, findAttrs, lkC1, round2, pyRound]

/-- Witness for C2 (amended) at the allocation `{A: 100/3 %}`. -/
theorem C2_witness :
    ("A", (100/3 : ℚ)) ∈ [("A", (100/3 : ℚ))] ∧
    (⟨"", "", "", getLiquidityD lkC1 "A", getInstrument lkC1 "A", some (100/3),
      some (100/3 / 100 * 300)⟩ : DRow) ∈ create_sunburst_table [("A", 100/3)] 300 lkC1 :=
  ⟨List.mem_cons_self _ _,
   (C2_amended_leaf_rows_unrounded [("A", 100/3)] 300 lkC1 "A" (100/3)
     (List.mem_cons_self _ _)).1⟩

/-! ## Claim C8: division-guarded weighted averages -/

/-- Every summary sub-asset-class row is emitted by the summary flattener. -/
theorem mem_flattenSummary_sacRow (m : SClassMap) (c : String) (acm : SACMap)
    (ac : String) (sm : SSubMap) (sac : String) (g : SGroup)
    (h1 : (c, acm) ∈ m) (h2 : (ac, sm) ∈ acm) (h3 : (sac, g) ∈ sm) :
    sacSummaryRow sac g ∈ flattenSummary m := by
  rw [flattenSummary]
  refine List.mem_flatMap.mpr ⟨(c, acm), h1, List.mem_cons_of_mem _ ?_⟩
  refine List.mem_flatMap.mpr ⟨(ac, sm), h2, List.mem_cons_of_mem _ ?_⟩
  exact List.mem_map.mpr ⟨(sac, g), h3, rfl⟩

/-- Every portfolio-variant sub-asset-class row is emitted. -/
theorem mem_flattenSummaryP_sacRow (m : PClassMap) (c : String) (acm : PACMap)
    (ac : String) (sm : PSubMap) (sac : String) (g : PGroup)
    (h1 : (c, acm) ∈ m) (h2 : (ac, sm) ∈ acm) (h3 : (sac, g) ∈ sm) :
    sacSummaryRowP sac g ∈ flattenSummaryP m := by
  rw [flattenSummaryP]
  refine List.mem_flatMap.mpr ⟨(c, acm), h1, List.mem_cons_of_mem _ ?_⟩
  refine List.mem_flatMap.mpr ⟨(ac, sm), h2, List.mem_cons_of_mem _ ?_⟩
  exact List.mem_map.mpr ⟨(sac, g), h3, rfl⟩

/-- C8: in both summary variants, every emitted weighted-average field is the
(rounded) quotient `weighted sum / total weight` when the accumulated weight
is positive, and the deliberate default `0` when the weight is `0`; the
division is never reached with a zero denominator (the `> 0` guard). This
holds for sub-asset-class rows and for classification rows (whose numbers
are the rolled-up sums over descendant groups). -/
theorem C8_weighted_average_guard :
    (∀ (m : SClassMap) (c : String) (acm : SACMap) (ac : String) (sm : SSubMap)
        (sac : String) (g : SGroup),
      (c, acm) ∈ m → (ac, sm) ∈ acm → (sac, g) ∈ sm →
      (sacSummaryRow sac g ∈ flattenSummary m ∧
        (0 < g.total_weight →
          (sacSummaryRow sac g).yieldPct =
            some (round2 (g.weighted_yield / g.total_weight)) ∧
          (sacSummaryRow sac g).returnPct =
            some (round2 (g.weighted_return / g.total_weight)) ∧
          (sacSummaryRow sac g).volatilityPct =
            some (round2 (g.weighted_volatility / g.total_weight))) ∧
        (g.total_weight = 0 →
          (sacSummaryRow sac g).yieldPct = some 0 ∧
          (sacSummaryRow sac g).returnPct = some 0 ∧
          (sacSummaryRow sac g).volatilityPct = some 0)) ∧
      (classSummaryRow c acm ∈ flattenSummary m ∧
        (0 < classFieldSum (·.total_weight) acm →
          (classSummaryRow c acm).yieldPct =
            some (round2 (classFieldSum (·.weighted_yield) acm /
              classFieldSum (·.total_weight) acm)) ∧
          (classSummaryRow c acm).returnPct =
            some (round2 (classFieldSum (·.weighted_return) acm /
              classFieldSum (·.total_weight) acm)) ∧
          (classSummaryRow c acm).volatilityPct =
            some (round2 (classFieldSum (·.weighted_volatility) acm /
              classFieldSum (·.total_weight) acm))) ∧
        (classFieldSum (·.total_weight) acm = 0 →
          (classSummaryRow c acm).yieldPct = some 0 ∧
          (classSummaryRow c acm).returnPct = some 0 ∧
          (classSummaryRow c acm).volatilityPct = some 0))) ∧
    (∀ (m : PClassMap) (c : String) (acm : PACMap) (ac : String) (sm : PSubMap)
        (sac : String) (g : PGroup),
      (c, acm) ∈ m → (ac, sm) ∈ acm → (sac, g) ∈ sm →
      (sacSummaryRowP sac g ∈ flattenSummaryP m ∧
        (0 < g.total_weight →
          (sacSummaryRowP sac g).yieldPct =
            some (round2 (g.weighted_yield / g.total_weight)) ∧
          (sacSummaryRowP sac g).returnPct =
            some (round2 (g.weighted_return / g.total_weight)) ∧
          (sacSummaryRowP sac g).volatilityPct =
            some (round2 (g.weighted_volatility / g.total_weight))) ∧
        (g.total_weight = 0 →
          (sacSummaryRowP sac g).yieldPct = some 0 ∧
          (sacSummaryRowP sac g).returnPct = some 0 ∧
          (sacSummaryRowP sac g).volatilityPct = some 0)) ∧
      (classSummaryRowP c acm ∈ flattenSummaryP m ∧
        (0 < classFieldSumP (·.total_weight) acm →
          (classSummaryRowP c acm).yieldPct =
            some (round2 (classFieldSumP (·.weighted_yield) acm /
              classFieldSumP (·.total_weight) acm)) ∧
          (classSummaryRowP c acm).returnPct =
            some (round2 (classFieldSumP (·.weighted_return) acm /
              classFieldSumP (·.total_weight) acm)) ∧
          (classSummaryRowP c acm).volatilityPct =
            some (round2 (classFieldSumP (·.weighted_volatility) acm /
              classFieldSumP (·.total_weight) acm))) ∧
        (classFieldSumP (·.total_weight) acm = 0 →
          (classSummaryRowP c acm).yieldPct = some 0 ∧
          (classSummaryRowP c acm).returnPct = some 0 ∧
          (classSummaryRowP c acm).volatilityPct = some 0))) := by
  constructor
  · intro m c acm ac sm sac g h1 h2 h3
    refine ⟨⟨mem_flattenSummary_sacRow m c acm ac sm sac g h1 h2 h3, ?_, ?_⟩,
      mem_flattenSummary_classRow m c acm h1, ?_, ?_⟩
    · intro hw; simp [sacSummaryRow, if_pos hw]
    · intro hw; simp [sacSummaryRow, hw, round2_zero]
    · intro hw; simp [classSummaryRow, if_pos hw]
    · intro hw; simp [classSummaryRow, hw, round2_zero]
  · intro m c acm ac sm sac g h1 h2 h3
    have hcls : classSummaryRowP c acm ∈ flattenSummaryP m := by
      rw [flattenSummaryP]
      exact List.mem_flatMap.mpr ⟨(c, acm), h1, List.mem_cons_self _ _⟩
    refine ⟨⟨mem_flattenSummaryP_sacRow m c acm ac sm sac g h1 h2 h3, ?_, ?_⟩,
      hcls, ?_, ?_⟩
    · intro hw; simp [sacSummaryRowP, if_pos hw]
    · intro hw; simp [sacSummaryRowP, hw, round2_zero]
    · intro hw; simp [classSummaryRowP, if_pos hw]
    · intro hw; simp [classSummaryRowP, hw, round2_zero]

/-- Witness for C8 at a concrete one-group tree (weight 60) and a concrete
zero-weight group. -/
theorem C8_witness :
    ((sacSummaryRow "US" ⟨60, 600, 300, 600, 900, 60, 3, 6⟩ ∈
        flattenSummary [("T", [("E", [("US", ⟨60, 600, 300, 600, 900, 60, 3, 6⟩)])])] ∧
      (sacSummaryRow "US" ⟨60, 600, 300, 600, 900, 60, 3, 6⟩).yieldPct =
        some (round2 ((300 : ℚ) / 60))) ∧
     (sacSummaryRow "Z" ⟨0, 0, 0, 0, 0, 0, 0, 0⟩).yieldPct = some 0) := by
  have h := (C8_weighted_average_guard.1
    [("T", [("E", [("US", ⟨60, 600, 300, 600, 900, 60, 3, 6⟩)])])]
    "T" [("E", [("US", ⟨60, 600, 300, 600, 900, 60, 3, 6⟩)])]
    "E" [("US", ⟨60, 600, 300, 600, 900, 60, 3, 6⟩)]
    "US" ⟨60, 600, 300, 600, 900, 60, 3, 6⟩
    (List.mem_singleton.mpr rfl) (List.mem_singleton.mpr rfl)
    (List.mem_singleton.mpr rfl)).1
  have h2 := (C8_weighted_average_guard.1
    [("T", [("E", [("Z", ⟨0, 0, 0, 0, 0, 0, 0, 0⟩)])])]
    "T" [("E", [("Z", ⟨0, 0, 0, 0, 0, 0, 0, 0⟩)])]
    "E" [("Z", ⟨0, 0, 0, 0, 0, 0, 0, 0⟩)]
    "Z" ⟨0, 0, 0, 0, 0, 0, 0, 0⟩
    (List.mem_singleton.mpr rfl) (List.mem_singleton.mpr rfl)
    (List.mem_singleton.mpr rfl)).1
  exact ⟨⟨h.1, (h.2.1 (by norm_num)).1⟩, (h2.2.2 rfl).1⟩

/-! ## Claim C10: first fund of a group fixes its Public/Private and
Income/Growth strings -/

/-- The (classification, asset class, sub-asset class) grouping key of a
fund. -/
def keyOfP (lk : Lookup) (a : String) : String × String × String :=
  (getClassification lk a, getAssetClass lk a, getSubAssetClass lk a)

/-- Looking a group up in the nested summary dict (portfolio.py variant). -/
def lookupPGroup (m : PClassMap) (k : String × String × String) : Option PGroup :=
  (alistFind m k.1).bind
    (fun acm => (alistFind acm k.2.1).bind (fun sm => alistFind sm k.2.2))

/-- One step of the portfolio.py summary accumulation, seen through
`lookupPGroup`: the matching key's group is created-or-updated, all other
keys are untouched. -/
theorem lookupPGroup_addAssetSummaryP (lk : Lookup) (tpv : ℚ) (m : PClassMap)
    (a : String) (p : ℚ) (k : String × String × String) :
    lookupPGroup (addAssetSummaryP lk tpv m a p) k =
      if k = keyOfP lk a then
        some (((lookupPGroup m k).getD
          (PGroup.init (getPublicPrivate lk a) (getIncomeGrowth lk a))).accum p
            (getYield lk a) (getReturn lk a) (getVolatility lk a) (p / 100 * tpv))
      else lookupPGroup m k := by
  obtain ⟨k1, k2, k3⟩ := k
  simp only [addAssetSummaryP, lookupPGroup]
  rw [alistFind_upsert]
  by_cases h1 : k1 = getClassification lk a
  · subst h1
    rw [if_pos rfl, Option.some_bind, alistFind_upsert]
    by_cases h2 : k2 = getAssetClass lk a
    · subst h2
      rw [if_pos rfl, Option.some_bind, alistFind_upsert]
      by_cases h3 : k3 = getSubAssetClass lk a
      · subst h3
        simp only [keyOfP, eq_self_iff_true, ite_true]
        cases hA : alistFind m (getClassification lk a) with
        | none => simp [hA, alistFind_nil]
        | some acm =>
          cases hB : alistFind acm (getAssetClass lk a) with
          | none => simp [hA, hB, alistFind_nil]
          | some sm => simp [hA, hB]
      · rw [if_neg h3, if_neg (fun h => h3 (congrArg (fun q => q.2.2) h))]
        cases hA : alistFind m (getClassification lk a) with
        | none => simp [hA, alistFind_nil]
        | some acm =>
          cases hB : alistFind acm (getAssetClass lk a) with
          | none => simp [hA, hB, alistFind_nil]
          | some sm => simp [hA, hB]
    · rw [if_neg h2, if_neg (fun h => h2 (congrArg (fun q => q.2.1) h))]
      cases hA : alistFind m (getClassification lk a) with
      | none => simp [hA, alistFind_nil]
      | some acm => simp [hA]
  · rw [if_neg h1, if_neg (fun h => h1 (congrArg (fun q => q.1) h))]

theorem alistFind_mem {β : Type} (k : String) (v : β) :
    ∀ m : List (String × β), alistFind m k = some v → (k, v) ∈ m := by
  intro m
  induction m with
  | nil => intro h; simp [alistFind_nil] at h
  | cons hd tl ih =>
    obtain ⟨a, w⟩ := hd
    rw [alistFind_cons]
    by_cases hak : a = k
    · rw [if_pos hak]
      intro h
      cases h
      subst hak
      exact List.mem_cons_self _ _
    · rw [if_neg hak]
      intro h
      exact List.mem_cons_of_mem _ (ih h)

/-- A group reachable through `lookupPGroup` has its sub-asset-class row
emitted by the portfolio.py summary flattener. -/
theorem lookupPGroup_row_mem (m : PClassMap) (c ac sac : String) (g : PGroup)
    (h : lookupPGroup m (c, ac, sac) = some g) :
    sacSummaryRowP sac g ∈ flattenSummaryP m := by
  rw [lookupPGroup] at h
  cases hA : alistFind m c with
  | none => rw [hA] at h; simp at h
  | some acm =>
    rw [hA, Option.some_bind] at h
    cases hB : alistFind acm ac with
    | none => rw [hB] at h; simp at h
    | some sm =>
      rw [hB, Option.some_bind] at h
      exact mem_flattenSummaryP_sacRow m c acm ac sm sac g
        (alistFind_mem c acm m hA) (alistFind_mem ac sm acm hB)
        (alistFind_mem sac g sm h)

/-- Folding funds into the portfolio.py summary dict: a group's
`public_private` / `income_growth` strings come from the group that was
already present, or else from the *first* fund of the list that maps to the
group's key. -/
theorem pgroup_strings_fold (lk : Lookup) (tpv : ℚ) :
    ∀ (assets : List (String × ℚ)) (m : PClassMap)
      (k : String × String × String) (g : PGroup),
      lookupPGroup
        (assets.foldl (fun m ap => addAssetSummaryP lk tpv m ap.1 ap.2) m) k = some g →
      (∀ g₀, lookupPGroup m k = some g₀ →
        g.public_private = g₀.public_private ∧ g.income_growth = g₀.income_growth) ∧
      (lookupPGroup m k = none →
        ∃ a₀ p₀,
          assets.find? (fun ap => decide (keyOfP lk ap.1 = k)) = some (a₀, p₀) ∧
          g.public_private = getPublicPrivate lk a₀ ∧
          g.income_growth = getIncomeGrowth lk a₀) := by
  intro assets
  induction assets with
  | nil =>
    intro m k g h
    constructor
    · intro g₀ h₀
      cases Option.some.inj (h.symm.trans h₀)
      exact ⟨rfl, rfl⟩
    · intro hnone
      rw [List.foldl_nil, hnone] at h
      cases h
  | cons f tl ih =>
    intro m k g h
    rw [List.foldl_cons] at h
    have IH := ih (addAssetSummaryP lk tpv m f.1 f.2) k g h
    have hstep := lookupPGroup_addAssetSummaryP lk tpv m f.1 f.2 k
    by_cases hk : k = keyOfP lk f.1
    · have hsome : lookupPGroup (addAssetSummaryP lk tpv m f.1 f.2) k =
          some (((lookupPGroup m k).getD
            (PGroup.init (getPublicPrivate lk f.1) (getIncomeGrowth lk f.1))).accum
              f.2 (getYield lk f.1) (getReturn lk f.1) (getVolatility lk f.1)
              (f.2 / 100 * tpv)) := by
        rw [hstep, if_pos hk]
      have hpp := IH.1 _ hsome
      constructor
      · intro g₀ h₀
        rw [h₀] at hpp
        exact ⟨hpp.1, hpp.2⟩
      · intro hnone
        rw [hnone] at hpp
        refine ⟨f.1, f.2, ?_, hpp.1, hpp.2⟩
        rw [List.find?_cons_of_pos]
        · exact decide_eq_true hk.symm
    · have heq : lookupPGroup (addAssetSummaryP lk tpv m f.1 f.2) k =
          lookupPGroup m k := by rw [hstep, if_neg hk]
      constructor
      · intro g₀ h₀
        exact IH.1 g₀ (by rw [heq]; exact h₀)
      · intro hnone
        obtain ⟨a₀, p₀, hfind, hp, hi⟩ := IH.2 (by rw [heq]; exact hnone)
        refine ⟨a₀, p₀, ?_, hp, hi⟩
        rw [List.find?_cons_of_neg]
        · exact hfind
        · simp only [decide_eq_true_eq]
          exact fun h' => hk h'.symm

/-- C10: in the portfolio.py summary, the "Public vs Private" and
"Income/Growth" strings stored for a (classification, asset class,
sub-asset class) group — and hence emitted on its sub-asset-class row — are
those of the *first* fund of the allocation that falls into the group; later
funds' attributes are discarded. -/
theorem C10_first_fund_wins (assets : List (String × ℚ)) (tpv : ℚ) (lk : Lookup)
    (c ac sac : String) (g : PGroup) (a₀ : String) (p₀ : ℚ)
    (hg : lookupPGroup (summary_totals_p assets tpv lk) (c, ac, sac) = some g)
    (hfind : assets.find? (fun ap => decide (keyOfP lk ap.1 = (c, ac, sac))) =
      some (a₀, p₀)) :
    g.public_private = getPublicPrivate lk a₀ ∧
    g.income_growth = getIncomeGrowth lk a₀ ∧
    sacSummaryRowP sac g ∈ create_summary_table_p assets tpv lk ∧
    (sacSummaryRowP sac g).publicPrivate = getPublicPrivate lk a₀ ∧
    (sacSummaryRowP sac g).incomeGrowth = getIncomeGrowth lk a₀ := by
  obtain ⟨a₁, p₁, hfind₁, hp, hi⟩ :=
    (pgroup_strings_fold lk tpv assets [] (c, ac, sac) g hg).2 rfl
  have : a₁ = a₀ ∧ p₁ = p₀ := by
    have := hfind₁.symm.trans hfind
    cases this
    exact ⟨rfl, rfl⟩
  obtain ⟨ha, hpq⟩ := this
  subst ha
  exact ⟨hp, hi, lookupPGroup_row_mem _ c ac sac g hg, hp, hi⟩

/-- Lookup used by the C10 witness: funds "A" and "B" share the same
(classification, asset class, sub-asset class) key but carry different
"Public vs Private" / "Income/Growth" strings. -/
def lkC10 : Lookup :=
  [("A", ⟨"T", "E", "US", "Liquid", "A", "Public", "Growth", 0, 0, 0⟩),
   ("B", ⟨"T", "E", "US", "Liquid", "B", "Private", "Income", 0, 0, 0⟩)]

/-- Witness for C10: with `{A: 60%, B: 40%}` both funds land in the group
("T","E","US"); the stored strings are fund A's ("Public"/"Growth") even
though fund B carries "Private"/"Income". -/
theorem C10_witness :
    getPublicPrivate lkC10 "B" = "Private" ∧
    getIncomeGrowth lkC10 "B" = "Income" ∧
    (⟨100, 1000, 0, 0, 0, 100, 0, 0, "Public", "Growth"⟩ : PGroup).public_private =
      getPublicPrivate lkC10 "A" ∧
    (⟨100, 1000, 0, 0, 0, 100, 0, 0, "Public", "Growth"⟩ : PGroup).income_growth =
      getIncomeGrowth lkC10 "A" ∧
    sacSummaryRowP "US" ⟨100, 1000, 0, 0, 0, 100, 0, 0, "Public", "Growth"⟩ ∈
      create_summary_table_p [("A", 60), ("B", 40)] 1000 lkC10 := by
  have hg : lookupPGroup (summary_totals_p [("A", 60), ("B", 40)] 1000 lkC10)
      ("T", "E", "US") =
      some ⟨100, 1000, 0, 0, 0, 100, 0, 0, "Public", "Growth"⟩ := by
    norm_num +decide [summary_totals_p, addAssetSummaryP, upsert, PGroup.init,
      PGroup.accum, getClassification, getAssetClass, getSubAssetClass,
      getPublicPrivate, getIncomeGrowth, getYield, getReturn, getVolatility,
      findAttrs, lkC10, lookupPGroup, alistFind_cons, alistFind_nil]
  have hfind : [("A", (60 : ℚ)), ("B", 40)].find?
      (fun ap => decide (keyOfP lkC10 ap.1 = ("T", "E", "US"))) = some ("A", 60) := by
    norm_num +decide [keyOfP, getClassification, getAssetClass, getSubAssetClass,
      findAttrs, lkC10, List.find?_cons]
  have h := C10_first_fund_wins [("A", 60), ("B", 40)] 1000 lkC10 "T" "E" "US"
    ⟨100, 1000, 0, 0, 0, 100, 0, 0, "Public", "Growth"⟩ "A" 60 hg hfind
  exact ⟨rfl, rfl, h.1, h.2.1, h.2.2.1⟩

/-! ## Claim C7: weighted averages versus the constituents' range -/

/-- Looking a group up in the nested summary dict
(2_Portfolio_Classification variant). -/
def lookupSGroup (m : SClassMap) (k : String × String × String) : Option SGroup :=
  (alistFind m k.1).bind
    (fun acm => (alistFind acm k.2.1).bind (fun sm => alistFind sm k.2.2))

/-- One step of the summary accumulation, seen through `lookupSGroup`. -/
theorem lookupSGroup_addAssetSummary (lk : Lookup) (tpv : ℚ) (m : SClassMap)
    (a : String) (p : ℚ) (k : String × String × String) :
    lookupSGroup (addAssetSummary lk tpv m a p) k =
      if k = keyOfP lk a then
        some (((lookupSGroup m k).getD SGroup.init).accum p
          (getYield lk a) (getReturn lk a) (getVolatility lk a) (p / 100 * tpv))
      else lookupSGroup m k := by
  obtain ⟨k1, k2, k3⟩ := k
  simp only [addAssetSummary, lookupSGroup]
  rw [alistFind_upsert]
  by_cases h1 : k1 = getClassification lk a
  · subst h1
    rw [if_pos rfl, Option.some_bind, alistFind_upsert]
    by_cases h2 : k2 = getAssetClass lk a
    · subst h2
      rw [if_pos rfl, Option.some_bind, alistFind_upsert]
      by_cases h3 : k3 = getSubAssetClass lk a
      · subst h3
        simp only [keyOfP, eq_self_iff_true, ite_true]
        cases hA : alistFind m (getClassification lk a) with
        | none => simp [hA, alistFind_nil]
        | some acm =>
          cases hB : alistFind acm (getAssetClass lk a) with
          | none => simp [hA, hB, alistFind_nil]
          | some sm => simp [hA, hB]
      · rw [if_neg h3, if_neg (fun h => h3 (congrArg (fun q => q.2.2) h))]
        cases hA : alistFind m (getClassification lk a) with
        | none => simp [hA, alistFind_nil]
        | some acm =>
          cases hB : alistFind acm (getAssetClass lk a) with
          | none => simp [hA, hB, alistFind_nil]
          | some sm => simp [hA, hB]
    · rw [if_neg h2, if_neg (fun h => h2 (congrArg (fun q => q.2.1) h))]
      cases hA : alistFind m (getClassification lk a) with
      | none => simp [hA, alistFind_nil]
      | some acm => simp [hA]
  · rw [if_neg h1, if_neg (fun h => h1 (congrArg (fun q => q.1) h))]

/-- Folding funds into the summary dict: any additive numeric field of the
group at key `k` accumulates exactly the contributions of the funds whose
grouping key is `k`. -/
theorem sgroup_field_fold (lk : Lookup) (tpv : ℚ) (f : SGroup → ℚ)
    (contrib : String → ℚ → ℚ)
    (hf : ∀ (g : SGroup) (a : String) (p : ℚ),
      f (g.accum p (getYield lk a) (getReturn lk a) (getVolatility lk a)
        (p / 100 * tpv)) = f g + contrib a p)
    (hinit : f SGroup.init = 0) :
    ∀ (assets : List (String × ℚ)) (m : SClassMap) (k : String × String × String),
      (match lookupSGroup
          (assets.foldl (fun m ap => addAssetSummary lk tpv m ap.1 ap.2) m) k with
        | some g => f g
        | none => 0) =
      (match lookupSGroup m k with | some g => f g | none => 0) +
        (assets.map (fun ap =>
          if keyOfP lk ap.1 = k then contrib ap.1 ap.2 else 0)).sum := by
  intro assets
  induction assets with
  | nil => intro m k; simp
  | cons f₀ tl ih =>
    intro m k
    rw [List.foldl_cons, ih, List.map_cons, List.sum_cons,
      lookupSGroup_addAssetSummary]
    by_cases hk : k = keyOfP lk f₀.1
    · rw [if_pos hk, if_pos hk.symm]
      cases hO : lookupSGroup m k with
      | none => simp [hf, hinit]
      | some g₀ =>
        simp [hf]
        ring
    · rw [if_neg hk, if_neg (fun h => hk h.symm)]
      ring

/-- In the built summary tree, an additive field of a group equals the sum of
its constituents' contributions. -/
theorem sgroup_field_of_build (lk : Lookup) (tpv : ℚ) (f : SGroup → ℚ)
    (contrib : String → ℚ → ℚ)
    (hf : ∀ (g : SGroup) (a : String) (p : ℚ),
      f (g.accum p (getYield lk a) (getReturn lk a) (getVolatility lk a)
        (p / 100 * tpv)) = f g + contrib a p)
    (hinit : f SGroup.init = 0)
    (assets : List (String × ℚ)) (k : String × String × String) (g : SGroup)
    (hg : lookupSGroup (summary_totals assets tpv lk) k = some g) :
    f g = ((assets.filter (fun ap => keyOfP lk ap.1 = k)).map
      (fun ap => contrib ap.1 ap.2)).sum := by
  have h := sgroup_field_fold lk tpv f contrib hf hinit assets [] k
  rw [summary_totals] at hg
  rw [hg] at h
  simpa [sum_map_ite (fun ap => keyOfP lk ap.1 = k) (fun ap => contrib ap.1 ap.2)
    assets, lookupSGroup, alistFind_nil] using h

/-- One step of the summary accumulation, seen through the classification
level: the class-wide sum of an additive group field gains the fund's
contribution exactly when the fund's classification matches. -/
theorem classAgg_addAssetSummary (lk : Lookup) (tpv : ℚ) (f : SGroup → ℚ)
    (contrib : String → ℚ → ℚ)
    (hf : ∀ (g : SGroup) (a : String) (p : ℚ),
      f (g.accum p (getYield lk a) (getReturn lk a) (getVolatility lk a)
        (p / 100 * tpv)) = f g + contrib a p)
    (hinit : f SGroup.init = 0)
    (m : SClassMap) (a : String) (p : ℚ) (c : String) :
    (match alistFind (addAssetSummary lk tpv m a p) c with
      | some acm => classFieldSum f acm
      | none => 0) =
    (match alistFind m c with | some acm => classFieldSum f acm | none => 0) +
      (if getClassification lk a = c then contrib a p else 0) := by
  simp only [addAssetSummary]
  rw [alistFind_upsert]
  by_cases hc : c = getClassification lk a
  · rw [if_pos hc, if_pos hc.symm]
    have hstep : ∀ acm : SACMap,
        classFieldSum f
          (upsert (getAssetClass lk a) []
            (fun sm => upsert (getSubAssetClass lk a) SGroup.init
              (fun g => g.accum p (getYield lk a) (getReturn lk a)
                (getVolatility lk a) (p / 100 * tpv)) sm) acm) =
          classFieldSum f acm + contrib a p := by
      intro acm
      refine alistSum_upsert (fun (sm : SSubMap) => alistSum f sm)
        (getAssetClass lk a) [] _ (contrib a p) (fun sm => ?_) rfl acm
      exact alistSum_upsert f (getSubAssetClass lk a) SGroup.init _ (contrib a p)
        (fun g => hf g a p) hinit sm
    cases hA : alistFind m c with
    | none =>
      subst hc
      rw [hA]
      simpa [classFieldSum, alistSum] using hstep []
    | some acm =>
      subst hc
      rw [hA]
      simpa using hstep acm
  · rw [if_neg hc, if_neg (fun h => hc h.symm)]
    ring

/-- Folding funds into the summary dict, classification level. -/
theorem classAgg_fold (lk : Lookup) (tpv : ℚ) (f : SGroup → ℚ)
    (contrib : String → ℚ → ℚ)
    (hf : ∀ (g : SGroup) (a : String) (p : ℚ),
      f (g.accum p (getYield lk a) (getReturn lk a) (getVolatility lk a)
        (p / 100 * tpv)) = f g + contrib a p)
    (hinit : f SGroup.init = 0) :
    ∀ (assets : List (String × ℚ)) (m : SClassMap) (c : String),
      (match alistFind
          (assets.foldl (fun m ap => addAssetSummary lk tpv m ap.1 ap.2) m) c with
        | some acm => classFieldSum f acm
        | none => 0) =
      (match alistFind m c with | some acm => classFieldSum f acm | none => 0) +
        (assets.map (fun ap =>
          if getClassification lk ap.1 = c then contrib ap.1 ap.2 else 0)).sum := by
  intro assets
  induction assets with
  | nil => intro m c; simp
  | cons f₀ tl ih =>
    intro m c
    rw [List.foldl_cons, ih, List.map_cons, List.sum_cons,
      classAgg_addAssetSummary lk tpv f contrib hf hinit m f₀.1 f₀.2 c]
    ring

/-- In the built summary tree, a class-wide additive field equals the sum of
the class constituents' contributions. -/
theorem classAgg_of_build (lk : Lookup) (tpv : ℚ) (f : SGroup → ℚ)
    (contrib : String → ℚ → ℚ)
    (hf : ∀ (g : SGroup) (a : String) (p : ℚ),
      f (g.accum p (getYield lk a) (getReturn lk a) (getVolatility lk a)
        (p / 100 * tpv)) = f g + contrib a p)
    (hinit : f SGroup.init = 0)
    (assets : List (String × ℚ)) (c : String) (acm : SACMap)
    (hc : alistFind (summary_totals assets tpv lk) c = some acm) :
    classFieldSum f acm = ((assets.filter (fun ap => getClassification lk ap.1 = c)).map
      (fun ap => contrib ap.1 ap.2)).sum := by
  have h := classAgg_fold lk tpv f contrib hf hinit assets [] c
  rw [summary_totals] at hc
  rw [hc] at h
  simpa [sum_map_ite (fun ap => getClassification lk ap.1 = c)
    (fun ap => contrib ap.1 ap.2) assets, alistFind_nil] using h

theorem sum_map_mul_const (L : List (String × ℚ)) (c : ℚ) :
    (L.map (fun ap => ap.2 * c)).sum = (L.map (·.2)).sum * c := by
  induction L with
  | nil => simp
  | cons hd tl ih =>
    simp only [List.map_cons, List.sum_cons, ih]
    ring

/-- A nonnegatively-weighted average of values inside `[lo, hi]` stays inside
`[lo, hi]` (when the total weight is positive). -/
theorem wavg_in_range (L : List (String × ℚ)) (metr : String → ℚ) (lo hi : ℚ)
    (hnn : ∀ ap ∈ L, 0 ≤ ap.2)
    (hb : ∀ ap ∈ L, lo ≤ metr ap.1 ∧ metr ap.1 ≤ hi)
    (hw : 0 < (L.map (·.2)).sum) :
    lo ≤ (L.map (fun ap => ap.2 * metr ap.1)).sum / (L.map (·.2)).sum ∧
    (L.map (fun ap => ap.2 * metr ap.1)).sum / (L.map (·.2)).sum ≤ hi := by
  have hupper : (L.map (fun ap => ap.2 * metr ap.1)).sum ≤ (L.map (fun ap => ap.2 * hi)).sum :=
    List.sum_le_sum (fun ap hap => mul_le_mul_of_nonneg_left (hb ap hap).2 (hnn ap hap))
  have hlower : (L.map (fun ap => ap.2 * lo)).sum ≤ (L.map (fun ap => ap.2 * metr ap.1)).sum :=
    List.sum_le_sum (fun ap hap => mul_le_mul_of_nonneg_left (hb ap hap).1 (hnn ap hap))
  constructor
  · rw [le_div_iff₀ hw]
    calc lo * (L.map (·.2)).sum = (L.map (·.2)).sum * lo := by ring
    _ = (L.map (fun ap => ap.2 * lo)).sum := (sum_map_mul_const L lo).symm
    _ ≤ (L.map (fun ap => ap.2 * metr ap.1)).sum := hlower
  · rw [div_le_iff₀ hw]
    calc (L.map (fun ap => ap.2 * metr ap.1)).sum ≤ (L.map (fun ap => ap.2 * hi)).sum := hupper
    _ = (L.map (·.2)).sum * hi := sum_map_mul_const L hi
    _ = hi * (L.map (·.2)).sum := by ring

/-- C7 amended: assuming nonnegative allocation percentages, at every node of
the Summary aggregation whose accumulated `total_weight` is positive, each
unrounded weighted average `weighted sum / total weight` lies within any
interval containing the corresponding metric values of the node's
constituent funds — both for sub-asset-class groups and for the rolled-up
classification level. (At zero-weight nodes the emitted average is the
default 0, which can lie outside the constituents' range — see the
counterexample.) -/
theorem C7_amended_weighted_average_range :
    (∀ (assets : List (String × ℚ)) (tpv : ℚ) (lk : Lookup)
        (k : String × String × String) (g : SGroup) (loY hiY loR hiR loV hiV : ℚ),
      (∀ ap ∈ assets, 0 ≤ ap.2) →
      lookupSGroup (summary_totals assets tpv lk) k = some g →
      0 < g.total_weight →
      (∀ ap ∈ assets, keyOfP lk ap.1 = k →
        (loY ≤ getYield lk ap.1 ∧ getYield lk ap.1 ≤ hiY) ∧
        (loR ≤ getReturn lk ap.1 ∧ getReturn lk ap.1 ≤ hiR) ∧
        (loV ≤ getVolatility lk ap.1 ∧ getVolatility lk ap.1 ≤ hiV)) →
      (loY ≤ g.weighted_yield / g.total_weight ∧
        g.weighted_yield / g.total_weight ≤ hiY) ∧
      (loR ≤ g.weighted_return / g.total_weight ∧
        g.weighted_return / g.total_weight ≤ hiR) ∧
      (loV ≤ g.weighted_volatility / g.total_weight ∧
        g.weighted_volatility / g.total_weight ≤ hiV)) ∧
    (∀ (assets : List (String × ℚ)) (tpv : ℚ) (lk : Lookup)
        (c : String) (acm : SACMap) (loY hiY loR hiR loV hiV : ℚ),
      (∀ ap ∈ assets, 0 ≤ ap.2) →
      alistFind (summary_totals assets tpv lk) c = some acm →
      0 < classFieldSum (·.total_weight) acm →
      (∀ ap ∈ assets, getClassification lk ap.1 = c →
        (loY ≤ getYield lk ap.1 ∧ getYield lk ap.1 ≤ hiY) ∧
        (loR ≤ getReturn lk ap.1 ∧ getReturn lk ap.1 ≤ hiR) ∧
        (loV ≤ getVolatility lk ap.1 ∧ getVolatility lk ap.1 ≤ hiV)) →
      (loY ≤ classFieldSum (·.weighted_yield) acm / classFieldSum (·.total_weight) acm ∧
        classFieldSum (·.weighted_yield) acm / classFieldSum (·.total_weight) acm ≤ hiY) ∧
      (loR ≤ classFieldSum (·.weighted_return) acm / classFieldSum (·.total_weight) acm ∧
        classFieldSum (·.weighted_return) acm / classFieldSum (·.total_weight) acm ≤ hiR) ∧
      (loV ≤ classFieldSum (·.weighted_volatility) acm / classFieldSum (·.total_weight) acm ∧
        classFieldSum (·.weighted_volatility) acm / classFieldSum (·.total_weight) acm ≤ hiV)) := by
  constructor
  · intro assets tpv lk k g loY hiY loR hiR loV hiV hnn hg hw hb
    have hwy := sgroup_field_of_build lk tpv (fun g => g.weighted_yield)
      (fun a p => p * getYield lk a) (fun g a p => rfl) rfl assets k g hg
    have hwr := sgroup_field_of_build lk tpv (fun g => g.weighted_return)
      (fun a p => p * getReturn lk a) (fun g a p => rfl) rfl assets k g hg
    have hwv := sgroup_field_of_build lk tpv (fun g => g.weighted_volatility)
      (fun a p => p * getVolatility lk a) (fun g a p => rfl) rfl assets k g hg
    have htw := sgroup_field_of_build lk tpv (fun g => g.total_weight)
      (fun a p => p) (fun g a p => rfl) rfl assets k g hg
    have hnn' : ∀ ap ∈ assets.filter (fun ap => keyOfP lk ap.1 = k), 0 ≤ ap.2 :=
      fun ap hap => hnn ap (List.mem_of_mem_filter hap)
    have hkmem : ∀ ap ∈ assets.filter (fun ap => keyOfP lk ap.1 = k),
        keyOfP lk ap.1 = k :=
      fun ap hap => of_decide_eq_true (List.mem_filter.mp hap).2
    have hw' : 0 < ((assets.filter (fun ap => keyOfP lk ap.1 = k)).map (·.2)).sum := by
      rw [← htw]; exact hw
    refine ⟨?_, ?_, ?_⟩
    · simp only [hwy, htw]
      exact wavg_in_range _ (fun a => getYield lk a) loY hiY hnn'
        (fun ap hap => (hb ap (List.mem_of_mem_filter hap) (hkmem ap hap)).1) hw'
    · simp only [hwr, htw]
      exact wavg_in_range _ (fun a => getReturn lk a) loR hiR hnn'
        (fun ap hap => (hb ap (List.mem_of_mem_filter hap) (hkmem ap hap)).2.1) hw'
    · simp only [hwv, htw]
      exact wavg_in_range _ (fun a => getVolatility lk a) loV hiV hnn'
        (fun ap hap => (hb ap (List.mem_of_mem_filter hap) (hkmem ap hap)).2.2) hw'
  · intro assets tpv lk c acm loY hiY loR hiR loV hiV hnn hc hw hb
    have hwy := classAgg_of_build lk tpv (fun g => g.weighted_yield)
      (fun a p => p * getYield lk a) (fun g a p => rfl) rfl assets c acm hc
    have hwr := classAgg_of_build lk tpv (fun g => g.weighted_return)
      (fun a p => p * getReturn lk a) (fun g a p => rfl) rfl assets c acm hc
    have hwv := classAgg_of_build lk tpv (fun g => g.weighted_volatility)
      (fun a p => p * getVolatility lk a) (fun g a p => rfl) rfl assets c acm hc
    have htw := classAgg_of_build lk tpv (fun g => g.total_weight)
      (fun a p => p) (fun g a p => rfl) rfl assets c acm hc
    have hnn' : ∀ ap ∈ assets.filter (fun ap => getClassification lk ap.1 = c),
        0 ≤ ap.2 :=
      fun ap hap => hnn ap (List.mem_of_mem_filter hap)
    have hkmem : ∀ ap ∈ assets.filter (fun ap => getClassification lk ap.1 = c),
        getClassification lk ap.1 = c :=
      fun ap hap => of_decide_eq_true (List.mem_filter.mp hap).2
    have hw' : 0 <
        ((assets.filter (fun ap => getClassification lk ap.1 = c)).map (·.2)).sum := by
      rw [← htw]; exact hw
    refine ⟨?_, ?_, ?_⟩
    · simp only [hwy, htw]
      exact wavg_in_range _ (fun a => getYield lk a) loY hiY hnn'
        (fun ap hap => (hb ap (List.mem_of_mem_filter hap) (hkmem ap hap)).1) hw'
    · simp only [hwr, htw]
      exact wavg_in_range _ (fun a => getReturn lk a) loR hiR hnn'
        (fun ap hap => (hb ap (List.mem_of_mem_filter hap) (hkmem ap hap)).2.1) hw'
    · simp only [hwv, htw]
      exact wavg_in_range _ (fun a => getVolatility lk a) loV hiV hnn'
        (fun ap hap => (hb ap (List.mem_of_mem_filter hap) (hkmem ap hap)).2.2) hw'

/-- Lookup used by the C7 counterexample and witness: fund "A" has yield 5,
return 10, volatility 15 in Traditional/Equity/US; fund "B" has yield 1,
return 2, volatility 3 in Alt/PE/Buyout. -/
def lkC7 : Lookup :=
  [("A", ⟨"Traditional", "Equity", "US", "Liquid", "A", "Public", "Growth", 5, 10, 15⟩),
   ("B", ⟨"Alt", "PE", "Buyout", "Illiquid", "B", "Private", "Income", 1, 2, 3⟩)]

/-- C7 counterexample: in the canonical allocation `{A: 0%, B: 100%}` the
group Traditional/Equity/US has total weight 0, so its emitted
weighted-average fields default to 0 — outside the range `[5, 5]` of the
yield values of its only constituent fund "A". -/
theorem C7_counterexample :
    lookupSGroup (summary_totals [("A", 0), ("B", 100)] 1000 lkC7)
      ("Traditional", "Equity", "US") = some ⟨0, 0, 0, 0, 0, 0, 0, 0⟩ ∧
    (create_summary_table [("A", 0), ("B", 100)] 1000 lkC7)[2]? =
      some ⟨"", "", "US", some 0, some 0, some 0, some 0, some 0, some 0,
        some 0, some 0, some 0⟩ ∧
    getYield lkC7 "A" = 5 ∧
    ¬ ((5 : ℚ) ≤ 0) := by
  refine ⟨?_, ?_, rfl, by norm_num⟩ <;>
    norm_num +decide [summary_totals, addAssetSummary, upsert, SGroup.init,
      SGroup.accum, create_summary_table, flattenSummary, classSummaryRow,
      sacSummaryRow, classFieldSum, lookupSGroup, alistFind_cons, alistFind_nil,
      getClassification, getAssetClass, getSubAssetClass, getYield, getReturn,
      getVolatility, findAttrs, lkC7, round2, pyRound]

/-- Witness for C7 (amended) at the allocation `{A: 60%}`: the group
Traditional/Equity/US has weights 60 and weighted sums 300/600/900, whose
averages 5/10/15 lie in the (degenerate) ranges of the single constituent. -/
theorem C7_witness :
    (5 ≤ (⟨60, 600, 300, 600, 900, 60, 3, 6⟩ : SGroup).weighted_yield /
        (⟨60, 600, 300, 600, 900, 60, 3, 6⟩ : SGroup).total_weight ∧
      (⟨60, 600, 300, 600, 900, 60, 3, 6⟩ : SGroup).weighted_yield /
        (⟨60, 600, 300, 600, 900, 60, 3, 6⟩ : SGroup).total_weight ≤ 5) ∧
    (10 ≤ (⟨60, 600, 300, 600, 900, 60, 3, 6⟩ : SGroup).weighted_return /
        (⟨60, 600, 300, 600, 900, 60, 3, 6⟩ : SGroup).total_weight ∧
      (⟨60, 600, 300, 600, 900, 60, 3, 6⟩ : SGroup).weighted_return /
        (⟨60, 600, 300, 600, 900, 60, 3, 6⟩ : SGroup).total_weight ≤ 10) ∧
    (15 ≤ (⟨60, 600, 300, 600, 900, 60, 3, 6⟩ : SGroup).weighted_volatility /
        (⟨60, 600, 300, 600, 900, 60, 3, 6⟩ : SGroup).total_weight ∧
      (⟨60, 600, 300, 600, 900, 60, 3, 6⟩ : SGroup).weighted_volatility /
        (⟨60, 600, 300, 600, 900, 60, 3, 6⟩ : SGroup).total_weight ≤ 15) := by
  have hg : lookupSGroup (summary_totals [("A", 60)] 1000 lkC7)
      ("Traditional", "Equity", "US") = some ⟨60, 600, 300, 600, 900, 60, 3, 6⟩ := by
    norm_num +decide [summary_totals, addAssetSummary, upsert, SGroup.init,
      SGroup.accum, lookupSGroup, alistFind_cons, alistFind_nil,
      getClassification, getAssetClass, getSubAssetClass, getYield, getReturn,
      getVolatility, findAttrs, lkC7]
  have hnn : ∀ ap ∈ [("A", (60 : ℚ))], 0 ≤ ap.2 := by
    intro ap hap
    have : ap = ("A", (60 : ℚ)) := by simpa using hap
    subst this
    norm_num
  have hb : ∀ ap ∈ [("A", (60 : ℚ))],
      keyOfP lkC7 ap.1 = ("Traditional", "Equity", "US") →
      ((5 : ℚ) ≤ getYield lkC7 ap.1 ∧ getYield lkC7 ap.1 ≤ 5) ∧
      ((10 : ℚ) ≤ getReturn lkC7 ap.1 ∧ getReturn lkC7 ap.1 ≤ 10) ∧
      ((15 : ℚ) ≤ getVolatility lkC7 ap.1 ∧ getVolatility lkC7 ap.1 ≤ 15) := by
    intro ap hap _
    have : ap = ("A", (60 : ℚ)) := by simpa using hap
    subst this
    norm_num [getYield, getReturn, getVolatility, findAttrs, lkC7, List.find?]
  exact C7_amended_weighted_average_range.1 [("A", 60)] 1000 lkC7
    ("Traditional", "Equity", "US") ⟨60, 600, 300, 600, 900, 60, 3, 6⟩
    5 5 10 10 15 15 hnn hg (by norm_num) hb
